import Mathlib

/-!
Verification development for the fungible-asset ledger pallet
(`frame/assets/src/lib.rs`).

The pallet's storage (`Asset`, `Account`, `Approvals`, `Metadata` maps) is
embedded as association lists inside a `State` structure; each public
operation (extrinsic) becomes a pure function `State → Except DispatchError
State`, wrapped by `applyOp`, which models the host's transactional dispatch
(on error the whole state change is discarded, matching the
read-modify-write / transactional-storage semantics the pallet relies on).

The extrinsic bodies found in `lib.rs` (`create`, `start_destroy`,
`destroy_accounts`, `destroy_approvals`, `finish_destroy`, `cancel_approval`,
`force_cancel_approval`, `force_asset_status`, `freeze`, `thaw`,
`freeze_asset`, `thaw_asset`, `transfer_ownership`, `set_team`,
`clear_metadata`, `force_set_metadata`, `force_clear_metadata`) are
translated directly from the source.  The internal helpers they delegate to
live in `functions.rs` / `types.rs`, which are not part of the provided
sources; those helpers (`increase_balance`, `decrease_balance`,
`dead_account`, `do_transfer`, `do_mint`, `do_burn`, `do_force_create`,
`do_approve_transfer`, `do_transfer_approved`, `do_set_metadata`,
`do_touch`, `do_refund`) are modelled from the specification, as marked in
their doc comments.
-/

namespace SubstrateAssets

/-- Lifecycle status of an asset class (`AssetStatus` in `types.rs`,
referenced throughout `lib.rs`): `Live` or `Destroying`. -/
inductive AssetStatus where
  | Live
  | Destroying
deriving DecidableEq, Repr

/-- Why an asset account is allowed to exist (spec section 3:
`reason` tag of `AssetAccountOf`). -/
inductive ExistenceReason where
  | Consumer
  | Sufficient
  | DepositHeld (amount : Nat)
  | DepositRefunded
deriving DecidableEq, Repr

/-- Per-asset registry record (`AssetDetails`, see the genesis build and
`create` in `lib.rs` for the field list).  Balances and counters live in
`Nat`; the source's checked/saturating arithmetic is made explicit at each
use site. -/
structure AssetDetails where
  owner : Nat
  issuer : Nat
  admin : Nat
  freezer : Nat
  supply : Nat
  deposit : Nat
  min_balance : Nat
  is_sufficient : Bool
  accounts : Nat
  sufficients : Nat
  approvals : Nat
  is_frozen : Bool
  status : AssetStatus
deriving DecidableEq, Repr

/-- Per (asset, account) ledger record (`AssetAccountOf`).  The opaque
`extra` payload is irrelevant to every claim and omitted. -/
structure AssetAccount where
  balance : Nat
  is_frozen : Bool
  reason : ExistenceReason
deriving DecidableEq, Repr

/-- Delegated-transfer approval record (`Approval`). -/
structure Approval where
  amount : Nat
  deposit : Nat
deriving DecidableEq, Repr

/-- Asset metadata record (`AssetMetadata`); byte strings are kept as lists
of `Nat` since only their lengths interact with deposits. -/
structure AssetMetadata where
  deposit : Nat
  name : List Nat
  symbol : List Nat
  decimals : Nat
  is_frozen : Bool
deriving DecidableEq, Repr

/-- The host currency subsystem (spec section 6): per-account free and
reserved balances, driven only through `reserve` / `unreserve` /
`repatriate_reserved`. -/
structure Currency where
  free : List (Nat × Nat)
  reserved : List (Nat × Nat)
deriving DecidableEq, Repr

/-- The whole key-value store owned by the pallet, plus the collaborating
currency state. -/
structure State where
  assets : List (Nat × AssetDetails)
  accounts : List ((Nat × Nat) × AssetAccount)
  approvals : List ((Nat × Nat × Nat) × Approval)
  metadata : List (Nat × AssetMetadata)
  currency : Currency
deriving DecidableEq, Repr

/-- Runtime configuration constants (`Config` trait in `lib.rs`).
`maxBalance` is the upper bound of the `Balance` type (the source's checked
arithmetic errors instead of exceeding it); `providers` is the fixed set of
accounts for which the external account-existence collaborator grants a
provider reference (spec section 6). -/
structure Config where
  removeKeysLimit : Nat
  assetDeposit : Nat
  assetAccountDeposit : Nat
  metadataDepositBase : Nat
  metadataDepositPerByte : Nat
  approvalDeposit : Nat
  stringLimit : Nat
  maxBalance : Nat
  providers : List Nat
deriving DecidableEq, Repr

/-- Dispatch errors.  The first fifteen constructors mirror the pallet's
`Error` enum in `lib.rs`; `LiveAsset` is the variant referenced by
`destroy_accounts` (line 665) although it is absent from the declared enum;
`Overflow` is `ArithmeticError::Overflow`; `BelowMinimum` is
`TokenError::BelowMinimum` (credit that would violate the all-or-nothing
floor); `BadOrigin` covers `ensure_signed` failures;
`InsufficientBalance` is the currency collaborator's reserve failure. -/
inductive DispatchError where
  | BalanceLow
  | NoAccount
  | NoPermission
  | Unknown
  | Frozen
  | InUse
  | BadWitness
  | MinBalanceZero
  | NoProvider
  | BadMetadata
  | Unapproved
  | WouldDie
  | AlreadyExists
  | NoDeposit
  | WouldBurn
  | LiveAsset
  | Overflow
  | BelowMinimum
  | BadOrigin
  | InsufficientBalance
deriving DecidableEq, Repr

/-- Caller origin: the privileged `ForceOrigin` is modelled as `root`. -/
inductive Origin where
  | root
  | signed (who : Nat)
deriving DecidableEq, Repr

/-! ## Association-list storage primitives -/

/-- Lookup in an association list (first matching key). -/
def alookup {κ ν : Type} [DecidableEq κ] : List (κ × ν) → κ → Option ν
  | [], _ => none
  | e :: t, k => if e.1 = k then some e.2 else alookup t k

/-- Remove every entry with the given key. -/
def aerase {κ ν : Type} [DecidableEq κ] : List (κ × ν) → κ → List (κ × ν)
  | [], _ => []
  | e :: t, k => if e.1 = k then aerase t k else e :: aerase t k

/-- Insert-or-replace an entry. -/
def aset {κ ν : Type} [DecidableEq κ] (l : List (κ × ν)) (k : κ) (v : ν) :
    List (κ × ν) :=
  (k, v) :: aerase l k

/-- Total free balance of an account in the currency collaborator. -/
def Currency.freeOf (c : Currency) (who : Nat) : Nat :=
  (alookup c.free who).getD 0

/-- Total reserved balance of an account in the currency collaborator. -/
def Currency.reservedOf (c : Currency) (who : Nat) : Nat :=
  (alookup c.reserved who).getD 0

/-- `Currency::reserve(who, amt)`: move `amt` from free to reserved;
fails when the free balance is insufficient (spec section 6). -/
def Currency.reserve (c : Currency) (who : Nat) (amt : Nat) :
    Option Currency :=
  if c.freeOf who < amt then none
  else some { free := aset c.free who (c.freeOf who - amt),
              reserved := aset c.reserved who (c.reservedOf who + amt) }

/-- `Currency::unreserve(who, amt)`: move back `min amt reserved`;
never fails, best effort (spec section 6). -/
def Currency.unreserve (c : Currency) (who : Nat) (amt : Nat) : Currency :=
  let m := min amt (c.reservedOf who)
  { free := aset c.free who (c.freeOf who + m),
    reserved := aset c.reserved who (c.reservedOf who - m) }

/-- `Currency::repatriate_reserved(from, to, amt, Reserved)`: move up to
`amt` of `from`'s reserved balance to `to`'s reserved balance
(spec section 6; used only by `transfer_ownership`). -/
def Currency.repatriate (c : Currency) (src : Nat) (dst : Nat) (amt : Nat) :
    Currency :=
  if src = dst then c
  else
    let m := min amt (c.reservedOf src)
    { free := c.free,
      reserved := aset (aset c.reserved src (c.reservedOf src - m)) dst
        (c.reservedOf dst + m) }

/-- Sum of the balances of every account record of asset `id`
(the right-hand side of the conservation invariant). -/
def sumBal (l : List ((Nat × Nat) × AssetAccount)) (id : Nat) : Nat :=
  (l.filter (fun e => decide (e.1.1 = id))).foldr
    (fun e acc => e.2.balance + acc) 0

/-- Number of account records stored for asset `id`. -/
def cntAcc (l : List ((Nat × Nat) × AssetAccount)) (id : Nat) : Nat :=
  (l.filter (fun e => decide (e.1.1 = id))).length

/-- Number of approval records stored for asset `id`. -/
def cntApp (l : List ((Nat × Nat × Nat) × Approval)) (id : Nat) : Nat :=
  (l.filter (fun e => decide (e.1.1 = id))).length

/-- The `maybe_check_owner` pattern of the destroy-family extrinsics:
`ForceOrigin::try_origin(origin)` succeeding yields no owner check,
otherwise the signed caller must later match the owner. -/
def maybeCheckOwner : Origin → Option Nat
  | .root => none
  | .signed who => some who

/-- The `ensure!(details.owner == check_owner)` guard shared by the
destroy-family extrinsics: `true` means the permission check fails. -/
def permFail (chk : Option Nat) (owner : Nat) : Bool :=
  match chk with
  | none => false
  | some w => owner != w

/-! ## Balance-mutation primitives

Modelled from the spec: `increase_balance`, `decrease_balance` and
`dead_account` live in `functions.rs`, which is not among the provided
sources; the definitions below follow spec sections 4.2 (Balance Mutation
Engine) and 3 (data-model floor invariant) word by word. -/

/-- Modelled from the spec: `dead_account` (`functions.rs`, missing from
`src/`).  Tears an account record down per spec section 4.2: "decrements
`sufficients` or releases the provider reference, releases any outstanding
deposit, decrements registry `accounts`, and notifies the account-existence
collaborator of death".  The provider release and death notification are
external effects with no pallet state.  Counter decrements are saturating
(`Nat` subtraction). -/
def deadAccount (who : Nat) (acct : AssetAccount) (d : AssetDetails)
    (c : Currency) : AssetDetails × Currency :=
  let c' := match acct.reason with
    | .DepositHeld dep => c.unreserve who dep
    | _ => c
  let suff := match acct.reason with
    | .Sufficient => d.sufficients - 1
    | _ => d.sufficients
  ({ d with accounts := d.accounts - 1, sufficients := suff }, c')

/-- Modelled from the spec: `increase_balance` (`functions.rs`, missing
from `src/`), spec section 4.2: validates that the asset exists, that the
asset is not asset-wide frozen, and that the account is not frozen; creates
the account on first credit (incrementing `sufficients` for a sufficient
asset, otherwise requiring a provider reference from the account-existence
collaborator, else `NoProvider`); adds `amount` to the balance and applies
the caller's supply adjustment (`supplyDelta`, checked against the numeric
bound per spec section 4.2 "Numeric semantics").  The spec section 3
all-or-nothing floor (`balance >= min_balance` whenever positive) is
enforced on the resulting balance (`BelowMinimum`). -/
def increaseBalance (cfg : Config) (id who amount supplyDelta : Nat)
    (s : State) : Except DispatchError State :=
  if amount = 0 then .ok s
  else
    match alookup s.assets id with
    | none => .error .Unknown
    | some d =>
      if d.is_frozen then .error .Frozen
      else
        match alookup s.accounts (id, who) with
        | some acct =>
          if acct.is_frozen then .error .Frozen
          else if cfg.maxBalance < acct.balance + amount then .error .Overflow
          else if acct.balance + amount < d.min_balance then
            .error .BelowMinimum
          else if cfg.maxBalance < d.supply + supplyDelta then .error .Overflow
          else
            .ok { s with
              accounts := aset s.accounts (id, who)
                { acct with balance := acct.balance + amount },
              assets := aset s.assets id
                { d with supply := d.supply + supplyDelta } }
        | none =>
          if amount < d.min_balance then .error .BelowMinimum
          else if cfg.maxBalance < amount then .error .Overflow
          else
            match (if d.is_sufficient then some ExistenceReason.Sufficient
              else if who ∈ cfg.providers then some ExistenceReason.Consumer
              else none) with
            | none => .error .NoProvider
            | some reason =>
              if cfg.maxBalance < d.supply + supplyDelta then .error .Overflow
              else
                .ok { s with
                  accounts := aset s.accounts (id, who)
                    { balance := amount, is_frozen := false,
                      reason := reason },
                  assets := aset s.assets id
                    { d with
                        supply := d.supply + supplyDelta,
                        accounts := d.accounts + 1,
                        sufficients := if d.is_sufficient then
                          d.sufficients + 1 else d.sufficients } }

/-- Modelled from the spec: `decrease_balance` (`functions.rs`, missing
from `src/`), spec section 4.2: fails `NoAccount` when the record is
absent, `Frozen` when the asset or the account is frozen (the
account-frozen check can be bypassed by the transfer engine's admin
override, section 4.3); computes the actual debit with the dust-sweep /
keep-alive policy quoted in the spec; tears the account down through
`dead_account` when the resulting balance is zero.  Returns the actual
amount debited; the supply adjustment is the caller's job. -/
def debitAmount (minBalance b amount : Nat) (keepAlive bestEffort : Bool) :
    Except DispatchError Nat :=
  if keepAlive then
    if amount ≤ b - minBalance then .ok amount
    else if bestEffort then .ok (b - minBalance)
    else .error .BalanceLow
  else
    if b < amount then
      -- best-effort caps the raw debit at the whole balance; the dust sweep
      -- then leaves it unchanged (the remaining balance is already zero)
      if bestEffort then .ok b else .error .BalanceLow
    else
      .ok (if 0 < b - amount ∧ b - amount < minBalance then b else amount)

/-- Modelled from the spec: the state update of `decrease_balance` after
the actual debit has been computed by `debitAmount`. -/
def settleDebit (id who actual : Nat) (acct : AssetAccount)
    (d : AssetDetails) (s : State) : Nat × State :=
  if acct.balance - actual = 0 then
    let dc := deadAccount who acct d s.currency
    (actual, { s with
      accounts := aerase s.accounts (id, who),
      assets := aset s.assets id dc.1,
      currency := dc.2 })
  else
    (actual, { s with
      accounts := aset s.accounts (id, who)
        { acct with balance := acct.balance - actual } })

def decreaseBalance (id who amount : Nat)
    (keepAlive bestEffort bypassAccountFrozen : Bool) (s : State) :
    Except DispatchError (Nat × State) :=
  if amount = 0 then .ok (0, s)
  else
    match alookup s.assets id with
    | none => .error .Unknown
    | some d =>
      match alookup s.accounts (id, who) with
      | none => .error .NoAccount
      | some acct =>
        if d.is_frozen then .error .Frozen
        else if acct.is_frozen && !bypassAccountFrozen then .error .Frozen
        else
          match debitAmount d.min_balance acct.balance amount keepAlive
            bestEffort with
          | .error e => .error e
          | .ok actual => .ok (settleDebit id who actual acct d s)

/-- Modelled from the spec: `do_transfer` (`functions.rs`, missing from
`src/`), spec section 4.3: debits the source (admin override bypasses the
source's account-frozen check), credits the destination with the actual
debited amount; with `burn_dust` the swept remainder is burned from the
registry supply instead of being credited. -/
def doTransfer (cfg : Config) (id source dest amount : Nat)
    (maybeNeedAdmin : Option Nat) (keepAlive bestEffort burnDust : Bool)
    (s : State) : Except DispatchError (Nat × State) :=
  if amount = 0 then .ok (0, s)
  else
    match alookup s.assets id with
    | none => .error .Unknown
    | some d =>
      if (match maybeNeedAdmin with
          | some a => a != d.admin
          | none => false) then .error .NoPermission
      else
        match decreaseBalance id source amount keepAlive bestEffort
          maybeNeedAdmin.isSome s with
        | .error e => .error e
        | .ok (actual, s1) =>
          match increaseBalance cfg id dest
            (if burnDust then min actual amount else actual) 0 s1 with
          | .error e => .error e
          | .ok s2 =>
            if burnDust then
              match alookup s2.assets id with
              | none => .error .Unknown
              | some d2 =>
                .ok (actual, { s2 with
                  assets := aset s2.assets id
                    { d2 with supply := d2.supply -
                      (actual - min actual amount) } })
            else .ok (actual, s2)

/-! ## Extrinsics -/

/-- Translated from `lib.rs` (`create`, lines 523-558): fails `InUse` when
the id is taken, `MinBalanceZero` when the floor is zero; reserves
`AssetDeposit` from the creator; inserts a fresh Live record with the admin
lookup filling the three role fields. -/
def createFn (cfg : Config) (o : Origin) (id admin min_balance : Nat)
    (s : State) : Except DispatchError State :=
  match o with
  | .root => .error .BadOrigin
  | .signed owner =>
    if (alookup s.assets id).isSome then .error .InUse
    else if min_balance = 0 then .error .MinBalanceZero
    else
      match s.currency.reserve owner cfg.assetDeposit with
      | none => .error .InsufficientBalance
      | some c' =>
        .ok { s with
          currency := c',
          assets := aset s.assets id
            { owner := owner, issuer := admin, admin := admin,
              freezer := admin, supply := 0, deposit := cfg.assetDeposit,
              min_balance := min_balance, is_sufficient := false,
              accounts := 0, sufficients := 0, approvals := 0,
              is_frozen := false, status := .Live } }

/-- `force_create` (`lib.rs` lines 580-590) delegating to
`do_force_create`.  Modelled from the spec for the delegate
(`functions.rs`, missing from `src/`): same `InUse` / `MinBalanceZero`
checks as `create`, creation deposit skipped for the privileged origin
(spec section 4.1), all four roles set to `owner`. -/
def forceCreateFn (o : Origin) (id owner : Nat) (is_sufficient : Bool)
    (min_balance : Nat) (s : State) : Except DispatchError State :=
  if o ≠ .root then .error .BadOrigin
  else if (alookup s.assets id).isSome then .error .InUse
  else if min_balance = 0 then .error .MinBalanceZero
  else
    .ok { s with
      assets := aset s.assets id
        { owner := owner, issuer := owner, admin := owner, freezer := owner,
          supply := 0, deposit := 0, min_balance := min_balance,
          is_sufficient := is_sufficient, accounts := 0, sufficients := 0,
          approvals := 0, is_frozen := false, status := .Live } }

/-- Translated from `lib.rs` (`start_destroy`, lines 604-628): unknown
asset fails `Unknown`; a signed caller must be the owner (`NoPermission`);
the asset must be frozen (`BadWitness`); on success only the status field
is set to `Destroying`. -/
def startDestroyFn (o : Origin) (id : Nat) (s : State) :
    Except DispatchError State :=
  match alookup s.assets id with
  | none => .error .Unknown
  | some d =>
    if permFail (maybeCheckOwner o) d.owner then .error .NoPermission
    else if !d.is_frozen then .error .BadWitness
    else
      .ok { s with
        assets := aset s.assets id { d with status := .Destroying } }

/-- The `for (who, v) in drain_prefix` loop body of `destroy_accounts` /
`destroy_approvals` (`lib.rs` lines 667-674 and 730-737): entries are
processed in iteration order, the removal counter is incremented after each
entry and the loop breaks as soon as it reaches `RemoveKeysLimit`.  Returns
the processed entries and the untouched rest. -/
def drainSplitGo {α : Type} (lim : Nat) (removed : Nat) :
    List α → List α × List α
  | [] => ([], [])
  | e :: t =>
    if lim ≤ removed + 1 then ([e], t)
    else
      let p := drainSplitGo lim (removed + 1) t
      (e :: p.1, p.2)

/-- Entry point of the drain loop (removal counter starts at zero). -/
def drainSplit {α : Type} (lim : Nat) (l : List α) : List α × List α :=
  drainSplitGo lim 0 l

/-- Translated from `lib.rs` (`destroy_accounts`, lines 646-690): after the
`Unknown` / `NoPermission` / `BadWitness` / status (`LiveAsset`) checks it
drains up to `RemoveKeysLimit` account records of the asset, tearing each
down through `dead_account` (which never touches `supply`), and leaves the
remaining records in place.  The `Freezer::died` notifications are external
effects. -/
def destroyAccountsFn (cfg : Config) (o : Origin) (id : Nat) (s : State) :
    Except DispatchError State :=
  match alookup s.assets id with
  | none => .error .Unknown
  | some d =>
    if permFail (maybeCheckOwner o) d.owner then .error .NoPermission
    else if !d.is_frozen then .error .BadWitness
    else if d.status ≠ .Destroying then .error .LiveAsset
    else
      let idEntries := s.accounts.filter (fun e => decide (e.1.1 = id))
      let dc := (drainSplit cfg.removeKeysLimit idEntries).1.foldl
        (fun (p : AssetDetails × Currency) e =>
          deadAccount e.1.2 e.2 p.1 p.2) (d, s.currency)
      .ok { s with
        assets := aset s.assets id dc.1,
        accounts := s.accounts.filter (fun e => decide (¬ e.1.1 = id)) ++
          (drainSplit cfg.removeKeysLimit idEntries).2,
        currency := dc.2 }

/-- Translated from `lib.rs` (`destroy_approvals`, lines 708-748): same
guards as `destroy_accounts` except that the status check fails with
`Unknown`; drains up to `RemoveKeysLimit` approval records, unreserving
each deposit to its owner and saturating-decrementing the `approvals`
counter once per removal. -/
def destroyApprovalsFn (cfg : Config) (o : Origin) (id : Nat) (s : State) :
    Except DispatchError State :=
  match alookup s.assets id with
  | none => .error .Unknown
  | some d =>
    if permFail (maybeCheckOwner o) d.owner then .error .NoPermission
    else if !d.is_frozen then .error .BadWitness
    else if d.status ≠ .Destroying then .error .Unknown
    else
      let idEntries := s.approvals.filter (fun e => decide (e.1.1 = id))
      let dc := (drainSplit cfg.removeKeysLimit idEntries).1.foldl
        (fun (p : AssetDetails × Currency) e =>
          ({ p.1 with approvals := p.1.approvals - 1 },
            p.2.unreserve e.1.2.1 e.2.deposit)) (d, s.currency)
      .ok { s with
        assets := aset s.assets id dc.1,
        approvals := s.approvals.filter (fun e => decide (¬ e.1.1 = id)) ++
          (drainSplit cfg.removeKeysLimit idEntries).2,
        currency := dc.2 }

/-- Translated from `lib.rs` (`finish_destroy`, lines 763-793): `Unknown`
for an absent asset, `NoPermission` for a signed non-owner, `Unknown` when
the asset is not frozen, `InUse` while either counter is nonzero; on
success takes the metadata record (deposit zero when absent), unreserves
the creation deposit plus the metadata deposit to the owner, and deletes
the registry record.  The status field is never inspected. -/
def finishDestroyFn (o : Origin) (id : Nat) (s : State) :
    Except DispatchError State :=
  match alookup s.assets id with
  | none => .error .Unknown
  | some d =>
    if permFail (maybeCheckOwner o) d.owner then .error .NoPermission
    else if !d.is_frozen then .error .Unknown
    else if d.accounts ≠ 0 then .error .InUse
    else if d.approvals ≠ 0 then .error .InUse
    else
      .ok { s with
        assets := aerase s.assets id,
        metadata := aerase s.metadata id,
        currency := s.currency.unreserve d.owner (d.deposit +
          ((alookup s.metadata id).map AssetMetadata.deposit).getD 0) }

/-- `mint` (`lib.rs` lines 808-818) delegating to `do_mint`.  Modelled from
the spec for the delegate (`functions.rs`, missing from `src/`): the signed
caller must be the asset's issuer; credits through `increase_balance` with
the mint's checked supply adjustment (spec sections 4.1-4.2). -/
def mintFn (cfg : Config) (o : Origin) (id beneficiary amount : Nat)
    (s : State) : Except DispatchError State :=
  match o with
  | .root => .error .BadOrigin
  | .signed caller =>
    match alookup s.assets id with
    | none => .error .Unknown
    | some d =>
      if caller ≠ d.issuer then .error .NoPermission
      else increaseBalance cfg id beneficiary amount amount s

/-- `burn` (`lib.rs` lines 836-848) delegating to `do_burn` with
`DebitFlags { keep_alive: false, best_effort: true }`.  Modelled from the
spec for the delegate (`functions.rs`, missing from `src/`): the signed
caller must be the asset's admin; debits through `decrease_balance` and
reduces the registry supply by the actual amount debited (saturating). -/
def burnFn (o : Origin) (id who amount : Nat) (s : State) :
    Except DispatchError State :=
  match o with
  | .root => .error .BadOrigin
  | .signed caller =>
    match alookup s.assets id with
    | none => .error .Unknown
    | some d =>
      if caller ≠ d.admin then .error .NoPermission
      else
        match decreaseBalance id who amount false true false s with
        | .error e => .error e
        | .ok (actual, s1) =>
          match alookup s1.assets id with
          | none => .error .Unknown
          | some d1 =>
            .ok { s1 with
              assets := aset s1.assets id
                { d1 with supply := d1.supply - actual } }

/-- `transfer` (`lib.rs` lines 869-880): signed origin, flags
`{ keep_alive: false, best_effort: false, burn_dust: false }`, delegate
`do_transfer` modelled from the spec. -/
def transferFn (cfg : Config) (o : Origin) (id target amount : Nat)
    (s : State) : Except DispatchError State :=
  match o with
  | .root => .error .BadOrigin
  | .signed src =>
    match doTransfer cfg id src target amount none false false false s with
    | .error e => .error e
    | .ok (_, s') => .ok s'

/-- `transfer_keep_alive` (`lib.rs` lines 901-912): flags
`{ keep_alive: true, best_effort: false, burn_dust: false }`. -/
def transferKeepAliveFn (cfg : Config) (o : Origin) (id target amount : Nat)
    (s : State) : Except DispatchError State :=
  match o with
  | .root => .error .BadOrigin
  | .signed src =>
    match doTransfer cfg id src target amount none true false false s with
    | .error e => .error e
    | .ok (_, s') => .ok s'

/-- `force_transfer` (`lib.rs` lines 934-947): the signed caller is passed
as the admin override (`Some(origin)`), flags all false. -/
def forceTransferFn (cfg : Config) (o : Origin) (id source dest amount : Nat)
    (s : State) : Except DispatchError State :=
  match o with
  | .root => .error .BadOrigin
  | .signed caller =>
    match doTransfer cfg id source dest amount (some caller) false false
      false s with
    | .error e => .error e
    | .ok (_, s') => .ok s'

/-- Translated from `lib.rs` (`freeze`, lines 960-978): the signed caller
must be the asset's freezer; the account record must exist (`NoAccount`);
sets the account-level freeze flag. -/
def freezeFn (o : Origin) (id who : Nat) (s : State) :
    Except DispatchError State :=
  match o with
  | .root => .error .BadOrigin
  | .signed caller =>
    match alookup s.assets id with
    | none => .error .Unknown
    | some d =>
      if caller ≠ d.freezer then .error .NoPermission
      else
        match alookup s.accounts (id, who) with
        | none => .error .NoAccount
        | some acct =>
          .ok { s with
            accounts := aset s.accounts (id, who)
              { acct with is_frozen := true } }

/-- Translated from `lib.rs` (`thaw`, lines 991-1009): admin-gated unfreeze
of an account record. -/
def thawFn (o : Origin) (id who : Nat) (s : State) :
    Except DispatchError State :=
  match o with
  | .root => .error .BadOrigin
  | .signed caller =>
    match alookup s.assets id with
    | none => .error .Unknown
    | some d =>
      if caller ≠ d.admin then .error .NoPermission
      else
        match alookup s.accounts (id, who) with
        | none => .error .NoAccount
        | some acct =>
          .ok { s with
            accounts := aset s.accounts (id, who)
              { acct with is_frozen := false } }

/-- Translated from `lib.rs` (`freeze_asset`, lines 1021-1036):
freezer-gated asset-wide freeze. -/
def freezeAssetFn (o : Origin) (id : Nat) (s : State) :
    Except DispatchError State :=
  match o with
  | .root => .error .BadOrigin
  | .signed caller =>
    match alookup s.assets id with
    | none => .error .Unknown
    | some d =>
      if caller ≠ d.freezer then .error .NoPermission
      else
        .ok { s with
          assets := aset s.assets id { d with is_frozen := true } }

/-- Translated from `lib.rs` (`thaw_asset`, lines 1048-1063): admin-gated
asset-wide thaw. -/
def thawAssetFn (o : Origin) (id : Nat) (s : State) :
    Except DispatchError State :=
  match o with
  | .root => .error .BadOrigin
  | .signed caller =>
    match alookup s.assets id with
    | none => .error .Unknown
    | some d =>
      if caller ≠ d.admin then .error .NoPermission
      else
        .ok { s with
          assets := aset s.assets id { d with is_frozen := false } }

/-- Translated from `lib.rs` (`transfer_ownership`, lines 1076-1102):
owner-gated; no-op when the owner is unchanged; repatriates the creation
deposit plus the current metadata deposit to the new owner's reserved
balance. -/
def transferOwnershipFn (o : Origin) (id newOwner : Nat) (s : State) :
    Except DispatchError State :=
  match o with
  | .root => .error .BadOrigin
  | .signed caller =>
    match alookup s.assets id with
    | none => .error .Unknown
    | some d =>
      if caller ≠ d.owner then .error .NoPermission
      else if d.owner = newOwner then .ok s
      else
        .ok { s with
          currency := s.currency.repatriate d.owner newOwner (d.deposit +
            ((alookup s.metadata id).map AssetMetadata.deposit).getD 0),
          assets := aset s.assets id { d with owner := newOwner } }

/-- Translated from `lib.rs` (`set_team`, lines 1117-1140): owner-gated
replacement of the issuer, admin and freezer roles. -/
def setTeamFn (o : Origin) (id issuer admin freezer : Nat) (s : State) :
    Except DispatchError State :=
  match o with
  | .root => .error .BadOrigin
  | .signed caller =>
    match alookup s.assets id with
    | none => .error .Unknown
    | some d =>
      if caller ≠ d.owner then .error .NoPermission
      else
        .ok { s with
          assets := aset s.assets id
            { d with issuer := issuer, admin := admin, freezer := freezer } }

/-- `set_metadata` (`lib.rs` lines 1159-1168) delegating to
`do_set_metadata`.  Modelled from the spec for the delegate
(`functions.rs`, missing from `src/`): bounded name/symbol
(`BadMetadata`), owner-gated, frozen metadata rejects changes
(`NoPermission`); the deposit is
`MetadataDepositBase + MetadataDepositPerByte * (name.len + symbol.len)`
and the difference against any old deposit is reserved or unreserved
(spec section 6 surface list and `lib.rs` doc comment lines 1146-1148). -/
def metaDeposit (cfg : Config) (name symbol : List Nat) : Nat :=
  cfg.metadataDepositBase +
    cfg.metadataDepositPerByte * (name.length + symbol.length)

def setMetadataFn (cfg : Config) (o : Origin) (id : Nat)
    (name symbol : List Nat) (decimals : Nat) (s : State) :
    Except DispatchError State :=
  match o with
  | .root => .error .BadOrigin
  | .signed caller =>
    if cfg.stringLimit < name.length then .error .BadMetadata
    else if cfg.stringLimit < symbol.length then .error .BadMetadata
    else
      match alookup s.assets id with
      | none => .error .Unknown
      | some d =>
        if caller ≠ d.owner then .error .NoPermission
        else if ((alookup s.metadata id).map
            AssetMetadata.is_frozen).getD false then .error .NoPermission
        else
          let oldDep := ((alookup s.metadata id).map
            AssetMetadata.deposit).getD 0
          let newDep := metaDeposit cfg name symbol
          match (if oldDep < newDep then
              s.currency.reserve caller (newDep - oldDep)
            else some (s.currency.unreserve caller (oldDep - newDep))) with
          | none => .error .InsufficientBalance
          | some c' =>
            .ok { s with
              currency := c',
              metadata := aset s.metadata id
                { deposit := newDep, name := name, symbol := symbol,
                  decimals := decimals, is_frozen := false } }

/-- Translated from `lib.rs` (`clear_metadata`, lines 1182-1197):
owner-gated; takes the metadata record (`Unknown` when absent) and
unreserves its deposit to the owner. -/
def clearMetadataFn (o : Origin) (id : Nat) (s : State) :
    Except DispatchError State :=
  match o with
  | .root => .error .BadOrigin
  | .signed caller =>
    match alookup s.assets id with
    | none => .error .Unknown
    | some d =>
      if caller ≠ d.owner then .error .NoPermission
      else
        match alookup s.metadata id with
        | none => .error .Unknown
        | some m =>
          .ok { s with
            metadata := aerase s.metadata id,
            currency := s.currency.unreserve d.owner m.deposit }

/-- Translated from `lib.rs` (`force_set_metadata`, lines 1214-1250):
force-origin-gated; bounded name/symbol; asset must exist; keeps any
existing deposit and replaces the rest of the record. -/
def forceSetMetadataFn (cfg : Config) (o : Origin) (id : Nat)
    (name symbol : List Nat) (decimals : Nat) (is_frozen : Bool)
    (s : State) : Except DispatchError State :=
  if o ≠ .root then .error .BadOrigin
  else if cfg.stringLimit < name.length then .error .BadMetadata
  else if cfg.stringLimit < symbol.length then .error .BadMetadata
  else if (alookup s.assets id).isNone then .error .Unknown
  else
    .ok { s with
      metadata := aset s.metadata id
        { deposit := ((alookup s.metadata id).map
            AssetMetadata.deposit).getD 0,
          name := name, symbol := symbol, decimals := decimals,
          is_frozen := is_frozen } }

/-- Translated from `lib.rs` (`force_clear_metadata`, lines 1264-1277):
force-origin-gated; takes the metadata record (`Unknown` when absent) and
unreserves its deposit to the asset owner. -/
def forceClearMetadataFn (o : Origin) (id : Nat) (s : State) :
    Except DispatchError State :=
  if o ≠ .root then .error .BadOrigin
  else
    match alookup s.assets id with
    | none => .error .Unknown
    | some d =>
      match alookup s.metadata id with
      | none => .error .Unknown
      | some m =>
        .ok { s with
          metadata := aerase s.metadata id,
          currency := s.currency.unreserve d.owner m.deposit }

/-- Translated from `lib.rs` (`force_asset_status`, lines 1302-1329):
force-origin-gated; replaces the four roles, `min_balance`,
`is_sufficient` and `is_frozen`, leaving supply, deposit, the three
counters and the status untouched.  No account record is inspected or
modified. -/
def forceAssetStatusFn (o : Origin) (id owner issuer admin freezer
    min_balance : Nat) (is_sufficient is_frozen : Bool) (s : State) :
    Except DispatchError State :=
  if o ≠ .root then .error .BadOrigin
  else
    match alookup s.assets id with
    | none => .error .Unknown
    | some d =>
      .ok { s with
        assets := aset s.assets id
          { d with
              owner := owner, issuer := issuer, admin := admin,
              freezer := freezer, min_balance := min_balance,
              is_sufficient := is_sufficient, is_frozen := is_frozen } }

/-- `approve_transfer` (`lib.rs` lines 1352-1361) delegating to
`do_approve_transfer`.  Modelled from the spec for the delegate
(`functions.rs`, missing from `src/`), spec section 4.3 `approve`: adds to
an existing approval (saturating) or creates a new one; the deposit delta
is `ApprovalDeposit` on creation and zero on top-up, reserved from the
owner; the registry `approvals` counter is incremented only on creation. -/
def approveTransferFn (cfg : Config) (o : Origin) (id delegate amount : Nat)
    (s : State) : Except DispatchError State :=
  match o with
  | .root => .error .BadOrigin
  | .signed owner =>
    match alookup s.assets id with
    | none => .error .Unknown
    | some d =>
      match alookup s.approvals (id, owner, delegate) with
      | none =>
        match s.currency.reserve owner cfg.approvalDeposit with
        | none => .error .InsufficientBalance
        | some c' =>
          .ok { s with
            currency := c',
            approvals := aset s.approvals (id, owner, delegate)
              { amount := min amount cfg.maxBalance,
                deposit := cfg.approvalDeposit },
            assets := aset s.assets id
              { d with approvals := d.approvals + 1 } }
      | some a =>
        .ok { s with
          approvals := aset s.approvals (id, owner, delegate)
            { a with amount := min (a.amount + amount) cfg.maxBalance } }

/-- Translated from `lib.rs` (`cancel_approval`, lines 1377-1394): the
asset must exist (`Unknown`); taking an absent approval fails `Unknown`;
otherwise the deposit is unreserved to the owner and the `approvals`
counter saturating-decremented. -/
def cancelApprovalFn (o : Origin) (id delegate : Nat) (s : State) :
    Except DispatchError State :=
  match o with
  | .root => .error .BadOrigin
  | .signed owner =>
    match alookup s.assets id with
    | none => .error .Unknown
    | some d =>
      match alookup s.approvals (id, owner, delegate) with
      | none => .error .Unknown
      | some a =>
        .ok { s with
          approvals := aerase s.approvals (id, owner, delegate),
          currency := s.currency.unreserve owner a.deposit,
          assets := aset s.assets id
            { d with approvals := d.approvals - 1 } }

/-- Translated from `lib.rs` (`force_cancel_approval`, lines 1410-1436):
callable by the force origin or the asset's admin; same `Unknown` take
semantics as `cancel_approval`. -/
def forceCancelApprovalFn (o : Origin) (id owner delegate : Nat)
    (s : State) : Except DispatchError State :=
  match alookup s.assets id with
  | none => .error .Unknown
  | some d =>
    if (match o with
        | .root => false
        | .signed caller => caller != d.admin) then .error .NoPermission
    else
      match alookup s.approvals (id, owner, delegate) with
      | none => .error .Unknown
      | some a =>
        .ok { s with
          approvals := aerase s.approvals (id, owner, delegate),
          currency := s.currency.unreserve owner a.deposit,
          assets := aset s.assets id
            { d with approvals := d.approvals - 1 } }

/-- `transfer_approved` (`lib.rs` lines 1457-1468) delegating to
`do_transfer_approved`.  Modelled from the spec for the delegate
(`functions.rs`, missing from `src/`), spec section 4.3: fails
`Unapproved` when no approval exists or the approved amount is too small;
performs a non-keep-alive, non-best-effort transfer from the owner to the
destination; decrements the approval, deleting it, unreserving its deposit
and decrementing the `approvals` counter when it reaches zero. -/
def transferApprovedFn (cfg : Config) (o : Origin)
    (id owner destination amount : Nat) (s : State) :
    Except DispatchError State :=
  match o with
  | .root => .error .BadOrigin
  | .signed delegate =>
    match alookup s.assets id with
    | none => .error .Unknown
    | some _ =>
      match alookup s.approvals (id, owner, delegate) with
      | none => .error .Unapproved
      | some a =>
        if a.amount < amount then .error .Unapproved
        else
          match doTransfer cfg id owner destination amount none false false
            false s with
          | .error e => .error e
          | .ok (_, s1) =>
            if a.amount - amount = 0 then
              match alookup s1.assets id with
              | none => .error .Unknown
              | some d1 =>
                .ok { s1 with
                  approvals := aerase s1.approvals (id, owner, delegate),
                  currency := s1.currency.unreserve owner a.deposit,
                  assets := aset s1.assets id
                    { d1 with approvals := d1.approvals - 1 } }
            else
              .ok { s1 with
                approvals := aset s1.approvals (id, owner, delegate)
                  { a with amount := a.amount - amount } }

/-- `touch` (`lib.rs` lines 1480-1482) delegating to `do_touch`.  Modelled
from the spec for the delegate (`functions.rs`, missing from `src/`):
creates a zero-balance account backed by `AssetAccountDeposit` reserved
from the signer (spec section 6 surface list); fails `AlreadyExists` when
the record exists. -/
def touchFn (cfg : Config) (o : Origin) (id : Nat) (s : State) :
    Except DispatchError State :=
  match o with
  | .root => .error .BadOrigin
  | .signed who =>
    if (alookup s.accounts (id, who)).isSome then .error .AlreadyExists
    else
      match alookup s.assets id with
      | none => .error .Unknown
      | some d =>
        match s.currency.reserve who cfg.assetAccountDeposit with
        | none => .error .InsufficientBalance
        | some c' =>
          .ok { s with
            currency := c',
            accounts := aset s.accounts (id, who)
              { balance := 0, is_frozen := false,
                reason := .DepositHeld cfg.assetAccountDeposit },
            assets := aset s.assets id
              { d with accounts := d.accounts + 1 } }

/-- `refund` (`lib.rs` lines 1493-1499) delegating to `do_refund`.
Modelled from the spec for the delegate (`functions.rs`, missing from
`src/`): reclaims the account's held deposit, tearing the record down; a
residual balance requires `allow_burn` (`WouldBurn`) and is burned out of
the registry supply; frozen asset or account rejects (`Frozen`);
`NoDeposit` when no deposit backs the record. -/
def refundFn (o : Origin) (id : Nat) (allow_burn : Bool) (s : State) :
    Except DispatchError State :=
  match o with
  | .root => .error .BadOrigin
  | .signed who =>
    match alookup s.accounts (id, who) with
    | none => .error .Unknown
    | some acct =>
      match acct.reason with
      | .DepositHeld dep =>
        match alookup s.assets id with
        | none => .error .Unknown
        | some d =>
          if acct.balance ≠ 0 ∧ allow_burn = false then .error .WouldBurn
          else if d.is_frozen then .error .Frozen
          else if acct.is_frozen then .error .Frozen
          else
            .ok { s with
              currency := s.currency.unreserve who dep,
              accounts := aerase s.accounts (id, who),
              assets := aset s.assets id
                { d with
                    accounts := d.accounts - 1,
                    supply := d.supply - acct.balance } }
      | _ => .error .NoDeposit

/-! ## The public operation surface and reachability -/

/-- One public operation of the pallet (the `Call` enum of `lib.rs`
together with its origin). -/
inductive Op where
  | create (o : Origin) (id admin min_balance : Nat)
  | forceCreate (o : Origin) (id owner : Nat) (is_sufficient : Bool)
      (min_balance : Nat)
  | startDestroy (o : Origin) (id : Nat)
  | destroyAccounts (o : Origin) (id : Nat)
  | destroyApprovals (o : Origin) (id : Nat)
  | finishDestroy (o : Origin) (id : Nat)
  | mint (o : Origin) (id beneficiary amount : Nat)
  | burn (o : Origin) (id who amount : Nat)
  | transfer (o : Origin) (id target amount : Nat)
  | transferKeepAlive (o : Origin) (id target amount : Nat)
  | forceTransfer (o : Origin) (id source dest amount : Nat)
  | freeze (o : Origin) (id who : Nat)
  | thaw (o : Origin) (id who : Nat)
  | freezeAsset (o : Origin) (id : Nat)
  | thawAsset (o : Origin) (id : Nat)
  | transferOwnership (o : Origin) (id owner : Nat)
  | setTeam (o : Origin) (id issuer admin freezer : Nat)
  | setMetadata (o : Origin) (id : Nat) (name symbol : List Nat)
      (decimals : Nat)
  | clearMetadata (o : Origin) (id : Nat)
  | forceSetMetadata (o : Origin) (id : Nat) (name symbol : List Nat)
      (decimals : Nat) (is_frozen : Bool)
  | forceClearMetadata (o : Origin) (id : Nat)
  | forceAssetStatus (o : Origin) (id owner issuer admin freezer
      min_balance : Nat) (is_sufficient is_frozen : Bool)
  | approveTransfer (o : Origin) (id delegate amount : Nat)
  | cancelApproval (o : Origin) (id delegate : Nat)
  | forceCancelApproval (o : Origin) (id owner delegate : Nat)
  | transferApproved (o : Origin) (id owner destination amount : Nat)
  | touch (o : Origin) (id : Nat)
  | refund (o : Origin) (id : Nat) (allow_burn : Bool)
deriving DecidableEq, Repr

/-- Dispatch an operation to its extrinsic body. -/
def runOp (cfg : Config) : Op → State → Except DispatchError State
  | .create o id admin mb => createFn cfg o id admin mb
  | .forceCreate o id owner suff mb => forceCreateFn o id owner suff mb
  | .startDestroy o id => startDestroyFn o id
  | .destroyAccounts o id => destroyAccountsFn cfg o id
  | .destroyApprovals o id => destroyApprovalsFn cfg o id
  | .finishDestroy o id => finishDestroyFn o id
  | .mint o id b amt => mintFn cfg o id b amt
  | .burn o id w amt => burnFn o id w amt
  | .transfer o id t amt => transferFn cfg o id t amt
  | .transferKeepAlive o id t amt => transferKeepAliveFn cfg o id t amt
  | .forceTransfer o id src dst amt => forceTransferFn cfg o id src dst amt
  | .freeze o id w => freezeFn o id w
  | .thaw o id w => thawFn o id w
  | .freezeAsset o id => freezeAssetFn o id
  | .thawAsset o id => thawAssetFn o id
  | .transferOwnership o id w => transferOwnershipFn o id w
  | .setTeam o id i a f => setTeamFn o id i a f
  | .setMetadata o id n sy dec => setMetadataFn cfg o id n sy dec
  | .clearMetadata o id => clearMetadataFn o id
  | .forceSetMetadata o id n sy dec fz => forceSetMetadataFn cfg o id n sy dec fz
  | .forceClearMetadata o id => forceClearMetadataFn o id
  | .forceAssetStatus o id ow i a f mb suff fz =>
      forceAssetStatusFn o id ow i a f mb suff fz
  | .approveTransfer o id del amt => approveTransferFn cfg o id del amt
  | .cancelApproval o id del => cancelApprovalFn o id del
  | .forceCancelApproval o id ow del => forceCancelApprovalFn o id ow del
  | .transferApproved o id ow dst amt => transferApprovedFn cfg o id ow dst amt
  | .touch o id => touchFn cfg o id
  | .refund o id ab => refundFn o id ab

/-- Transactional dispatch (spec sections 5 and 7: "read-modify-write
operations either commit the whole closure's result or discard it"): on any
error the pre-state is kept. -/
def applyOp (cfg : Config) (op : Op) (s : State) :
    State × Option DispatchError :=
  match runOp cfg op s with
  | .ok s' => (s', none)
  | .error e => (s, some e)

/-- The empty ledger over a given external currency state. -/
def initState (c0 : Currency) : State :=
  { assets := [], accounts := [], approvals := [], metadata := [],
    currency := c0 }

/-- States reachable from the empty ledger by successful public
operations. -/
inductive Reachable (cfg : Config) (c0 : Currency) : State → Prop where
  | init : Reachable cfg c0 (initState c0)
  | step {s s' : State} (op : Op) : Reachable cfg c0 s →
      applyOp cfg op s = (s', none) → Reachable cfg c0 s'

/-- Whether an operation is `force_asset_status` (the one operation that
can rewrite `min_balance` under existing balances). -/
def Op.isForceAssetStatus : Op → Prop
  | .forceAssetStatus _ _ _ _ _ _ _ _ _ => True
  | _ => False

instance (op : Op) : Decidable op.isForceAssetStatus := by
  cases op <;> simp [Op.isForceAssetStatus] <;> infer_instance

/-- States reachable from the empty ledger without ever invoking
`force_asset_status`. -/
inductive ReachableNoFAS (cfg : Config) (c0 : Currency) : State → Prop where
  | init : ReachableNoFAS cfg c0 (initState c0)
  | step {s s' : State} (op : Op) : ReachableNoFAS cfg c0 s →
      ¬ op.isForceAssetStatus → applyOp cfg op s = (s', none) →
      ReachableNoFAS cfg c0 s'

/-! ## Invariants -/

/-- Key lists of the two structural maps have no duplicates (maintained by
construction through `aset` / `aerase`). -/
def KeysOk (s : State) : Prop :=
  (s.assets.map Prod.fst).Nodup ∧ (s.accounts.map Prod.fst).Nodup

/-- Every account record belongs to a registered asset. -/
def NoOrphans (s : State) : Prop :=
  ∀ e ∈ s.accounts, (alookup s.assets e.1.1).isSome

/-- The registry `accounts` counter of every asset equals the number of its
stored account records. -/
def CountersOk (s : State) : Prop :=
  ∀ e ∈ s.assets, e.2.accounts = cntAcc s.accounts e.1

/-- Conservation for Live assets: the registry supply equals the sum of
the stored balances (spec section 8, first testable property, restricted
to assets whose destruction draining has not begun). -/
def ConservedLive (s : State) : Prop :=
  ∀ e ∈ s.assets, e.2.status = .Live → e.2.supply = sumBal s.accounts e.1

/-- Unrestricted conservation, as claimed: supply equals the sum of
balances for every registered asset. -/
def Conserved (s : State) : Prop :=
  ∀ e ∈ s.assets, e.2.supply = sumBal s.accounts e.1

/-- The all-or-nothing floor (spec section 8, second testable property):
every positive stored balance is at least its asset's `min_balance`. -/
def Floor (s : State) : Prop :=
  ∀ e ∈ s.accounts, 0 < e.2.balance →
    ∀ d, alookup s.assets e.1.1 = some d → d.min_balance ≤ e.2.balance

/-- The structural bookkeeping invariants (key uniqueness, no orphan
account records, accurate `accounts` counters). -/
def Struct (s : State) : Prop :=
  KeysOk s ∧ NoOrphans s ∧ CountersOk s

/-- The structural invariants together with Live-asset conservation,
preserved by every public operation. -/
def WF (s : State) : Prop :=
  Struct s ∧ ConservedLive s

instance (s : State) : Decidable (KeysOk s) := by unfold KeysOk; infer_instance
instance (s : State) : Decidable (NoOrphans s) := by
  unfold NoOrphans; infer_instance
instance (s : State) : Decidable (CountersOk s) := by
  unfold CountersOk; infer_instance
instance (s : State) : Decidable (ConservedLive s) := by
  unfold ConservedLive
  refine List.decidableBAll _ _
instance (s : State) : Decidable (Conserved s) := by
  unfold Conserved; infer_instance
instance (s : State) : Decidable (Floor s) := by
  unfold Floor; infer_instance
instance (s : State) : Decidable (Struct s) := by
  unfold Struct; infer_instance
instance (s : State) : Decidable (WF s) := by unfold WF; infer_instance

/-! ## Association-list lemmas -/

section AListLemmas

variable {κ ν : Type} [DecidableEq κ]

theorem alookup_aset_self (l : List (κ × ν)) (k : κ) (v : ν) :
    alookup (aset l k v) k = some v := by
  simp [aset, alookup]

theorem alookup_aerase_self (l : List (κ × ν)) (k : κ) :
    alookup (aerase l k) k = none := by
  induction l with
  | nil => simp [aerase, alookup]
  | cons e t ih =>
    by_cases h : e.1 = k <;> simp [aerase, alookup, h, ih]

theorem alookup_aerase_ne (l : List (κ × ν)) (k k' : κ) (h : k' ≠ k) :
    alookup (aerase l k) k' = alookup l k' := by
  induction l with
  | nil => simp [aerase]
  | cons e t ih =>
    have hkk : ¬ k = k' := fun hc => h hc.symm
    by_cases he : e.1 = k
    · simp [aerase, alookup, he, hkk, ih]
    · by_cases he' : e.1 = k' <;> simp [aerase, alookup, he, he', ih, h]

theorem alookup_aset_ne (l : List (κ × ν)) (k k' : κ) (v : ν) (h : k' ≠ k) :
    alookup (aset l k v) k' = alookup l k' := by
  have hkk : ¬ k = k' := fun hc => h hc.symm
  simp [aset, alookup, hkk, alookup_aerase_ne l k k' h]

theorem alookup_eq_none_iff (l : List (κ × ν)) (k : κ) :
    alookup l k = none ↔ ∀ e ∈ l, e.1 ≠ k := by
  induction l with
  | nil => simp [alookup]
  | cons e t ih =>
    by_cases h : e.1 = k <;> simp [alookup, h, ih]

theorem aerase_of_alookup_none (l : List (κ × ν)) (k : κ)
    (h : alookup l k = none) : aerase l k = l := by
  induction l with
  | nil => rfl
  | cons e t ih =>
    rw [alookup_eq_none_iff] at h
    have he : e.1 ≠ k := h e (by simp)
    have ht : alookup t k = none := by
      rw [alookup_eq_none_iff]; exact fun x hx => h x (by simp [hx])
    simp [aerase, he, ih ht]

theorem mem_aerase {l : List (κ × ν)} {k : κ} {e : κ × ν}
    (h : e ∈ aerase l k) : e ∈ l := by
  induction l with
  | nil => simp [aerase] at h
  | cons x t ih =>
    by_cases hx : x.1 = k
    · simp only [aerase, if_pos hx] at h
      exact List.mem_cons_of_mem _ (ih h)
    · simp only [aerase, if_neg hx] at h
      rcases List.mem_cons.mp h with h | h
      · simp [h]
      · exact List.mem_cons_of_mem _ (ih h)

theorem mem_aerase_key {l : List (κ × ν)} {k : κ} {e : κ × ν}
    (h : e ∈ aerase l k) : e.1 ≠ k := by
  induction l with
  | nil => simp [aerase] at h
  | cons x t ih =>
    by_cases hx : x.1 = k
    · simp only [aerase, if_pos hx] at h; exact ih h
    · simp only [aerase, if_neg hx] at h
      rcases List.mem_cons.mp h with h | h
      · rw [h]; exact hx
      · exact ih h

theorem mem_aset {l : List (κ × ν)} {k : κ} {v : ν} {e : κ × ν}
    (h : e ∈ aset l k v) : e = (k, v) ∨ e ∈ l := by
  simp [aset] at h
  rcases h with h | h
  · left; exact h
  · right; exact mem_aerase h

theorem alookup_mem {l : List (κ × ν)} {k : κ} {v : ν}
    (h : alookup l k = some v) : (k, v) ∈ l := by
  induction l with
  | nil => simp [alookup] at h
  | cons e t ih =>
    by_cases he : e.1 = k
    · simp only [alookup, if_pos he, Option.some_inj] at h
      have : (k, v) = e := by cases e; simp_all
      rw [this]
      exact List.mem_cons_self _ _
    · simp only [alookup, if_neg he] at h
      exact List.mem_cons_of_mem _ (ih h)

theorem keys_nodup_aerase (l : List (κ × ν)) (k : κ)
    (h : (l.map Prod.fst).Nodup) : ((aerase l k).map Prod.fst).Nodup := by
  induction l with
  | nil => simp [aerase]
  | cons e t ih =>
    simp at h
    by_cases he : e.1 = k
    · simp [aerase, he]; exact ih h.2
    · simp [aerase, he]
      refine ⟨fun x hx => ?_, ih h.2⟩
      exact h.1 x (mem_aerase hx)

theorem keys_nodup_aset (l : List (κ × ν)) (k : κ) (v : ν)
    (h : (l.map Prod.fst).Nodup) : ((aset l k v).map Prod.fst).Nodup := by
  rw [aset, List.map_cons, List.nodup_cons]
  constructor
  · intro hc
    rcases List.mem_map.mp hc with ⟨e, he, hek⟩
    exact mem_aerase_key he hek
  · exact keys_nodup_aerase l k h

theorem alookup_isSome_of_mem {l : List (κ × ν)} {e : κ × ν}
    (h : e ∈ l) : (alookup l e.1).isSome := by
  induction l with
  | nil => simp at h
  | cons x t ih =>
    rcases List.mem_cons.mp h with h | h
    · subst h; simp [alookup]
    · by_cases hx : x.1 = e.1 <;> simp [alookup, hx, ih h]

theorem alookup_eq_of_mem_nodup {l : List (κ × ν)} {e : κ × ν}
    (hn : (l.map Prod.fst).Nodup) (h : e ∈ l) : alookup l e.1 = some e.2 := by
  induction l with
  | nil => simp at h
  | cons x t ih =>
    rw [List.map_cons, List.nodup_cons] at hn
    rcases List.mem_cons.mp h with h | h
    · rw [h]; simp [alookup]
    · have hx : ¬ x.1 = e.1 := by
        intro hc
        exact hn.1 (hc ▸ List.mem_map_of_mem Prod.fst h)
      simp [alookup, hx, ih hn.2 h]

end AListLemmas

/-! ## Sum and count lemmas -/

theorem sumBal_nil (id : Nat) : sumBal [] id = 0 := rfl

theorem sumBal_cons (e : (Nat × Nat) × AssetAccount)
    (t : List ((Nat × Nat) × AssetAccount)) (id : Nat) :
    sumBal (e :: t) id =
      if e.1.1 = id then e.2.balance + sumBal t id else sumBal t id := by
  by_cases h : e.1.1 = id <;> simp [sumBal, List.filter_cons, h]

theorem cntAcc_cons (e : (Nat × Nat) × AssetAccount)
    (t : List ((Nat × Nat) × AssetAccount)) (id : Nat) :
    cntAcc (e :: t) id =
      if e.1.1 = id then cntAcc t id + 1 else cntAcc t id := by
  by_cases h : e.1.1 = id <;> simp [cntAcc, List.filter_cons, h]

theorem sumBal_append (a b : List ((Nat × Nat) × AssetAccount)) (id : Nat) :
    sumBal (a ++ b) id = sumBal a id + sumBal b id := by
  induction a with
  | nil => simp [sumBal_nil]
  | cons e t ih =>
    by_cases h : e.1.1 = id <;>
      simp [sumBal_cons, h, ih, Nat.add_assoc]

theorem cntAcc_append (a b : List ((Nat × Nat) × AssetAccount)) (id : Nat) :
    cntAcc (a ++ b) id = cntAcc a id + cntAcc b id := by
  induction a with
  | nil => simp [cntAcc]
  | cons e t ih =>
    by_cases h : e.1.1 = id <;> simp [cntAcc_cons, h, ih] <;> omega

theorem sumBal_eq_zero (l : List ((Nat × Nat) × AssetAccount)) (id : Nat)
    (h : ∀ e ∈ l, ¬ e.1.1 = id) : sumBal l id = 0 := by
  induction l with
  | nil => rfl
  | cons e t ih =>
    rw [sumBal_cons, if_neg (h e (by simp))]
    exact ih fun x hx => h x (by simp [hx])

theorem cntAcc_eq_zero (l : List ((Nat × Nat) × AssetAccount)) (id : Nat)
    (h : ∀ e ∈ l, ¬ e.1.1 = id) : cntAcc l id = 0 := by
  induction l with
  | nil => rfl
  | cons e t ih =>
    rw [cntAcc_cons, if_neg (h e (by simp))]
    exact ih fun x hx => h x (by simp [hx])

theorem cntAcc_eq_length (l : List ((Nat × Nat) × AssetAccount)) (id : Nat)
    (h : ∀ e ∈ l, e.1.1 = id) : cntAcc l id = l.length := by
  induction l with
  | nil => rfl
  | cons e t ih =>
    rw [cntAcc_cons, if_pos (h e (by simp))]
    simp [ih fun x hx => h x (by simp [hx])]

theorem sumBal_aerase_ne (l : List ((Nat × Nat) × AssetAccount))
    (k : Nat × Nat) (id : Nat) (h : ¬ k.1 = id) :
    sumBal (aerase l k) id = sumBal l id := by
  induction l with
  | nil => rfl
  | cons e t ih =>
    by_cases he : e.1 = k
    · have : ¬ e.1.1 = id := by rw [he]; exact h
      simp only [aerase, if_pos he, sumBal_cons, if_neg this, ih]
    · simp only [aerase, if_neg he, sumBal_cons, ih]

theorem cntAcc_aerase_ne (l : List ((Nat × Nat) × AssetAccount))
    (k : Nat × Nat) (id : Nat) (h : ¬ k.1 = id) :
    cntAcc (aerase l k) id = cntAcc l id := by
  induction l with
  | nil => rfl
  | cons e t ih =>
    by_cases he : e.1 = k
    · have : ¬ e.1.1 = id := by rw [he]; exact h
      simp only [aerase, if_pos he, cntAcc_cons, if_neg this, ih]
    · simp only [aerase, if_neg he, cntAcc_cons, ih]

theorem sumBal_decomp {l : List ((Nat × Nat) × AssetAccount)}
    {k : Nat × Nat} {a : AssetAccount}
    (hn : (l.map Prod.fst).Nodup) (hk : alookup l k = some a) :
    sumBal l k.1 = a.balance + sumBal (aerase l k) k.1 := by
  induction l with
  | nil => simp [alookup] at hk
  | cons e t ih =>
    rw [List.map_cons, List.nodup_cons] at hn
    by_cases he : e.1 = k
    · simp only [alookup, if_pos he, Option.some_inj] at hk
      have hnone : alookup t k = none := by
        rw [alookup_eq_none_iff]
        intro x hx hc
        exact hn.1 (he ▸ hc ▸ List.mem_map_of_mem Prod.fst hx)
      rw [aerase, if_pos he, aerase_of_alookup_none t k hnone,
        sumBal_cons, if_pos (by rw [he]), hk]
    · simp only [alookup, if_neg he] at hk
      rw [aerase, if_neg he, sumBal_cons, sumBal_cons, ih hn.2 hk]
      by_cases h1 : e.1.1 = k.1 <;> simp [h1, Nat.add_left_comm]

theorem cntAcc_decomp {l : List ((Nat × Nat) × AssetAccount)}
    {k : Nat × Nat} {a : AssetAccount}
    (hn : (l.map Prod.fst).Nodup) (hk : alookup l k = some a) :
    cntAcc l k.1 = 1 + cntAcc (aerase l k) k.1 := by
  induction l with
  | nil => simp [alookup] at hk
  | cons e t ih =>
    rw [List.map_cons, List.nodup_cons] at hn
    by_cases he : e.1 = k
    · have hnone : alookup t k = none := by
        rw [alookup_eq_none_iff]
        intro x hx hc
        exact hn.1 (he ▸ hc ▸ List.mem_map_of_mem Prod.fst hx)
      rw [aerase, if_pos he, aerase_of_alookup_none t k hnone,
        cntAcc_cons, if_pos (by rw [he])]
      omega
    · simp only [alookup, if_neg he] at hk
      rw [aerase, if_neg he, cntAcc_cons, cntAcc_cons, ih hn.2 hk]
      by_cases h1 : e.1.1 = k.1 <;> simp [h1] <;> omega

theorem cntApp_cons (e : (Nat × Nat × Nat) × Approval)
    (t : List ((Nat × Nat × Nat) × Approval)) (id : Nat) :
    cntApp (e :: t) id =
      if e.1.1 = id then cntApp t id + 1 else cntApp t id := by
  by_cases h : e.1.1 = id <;> simp [cntApp, List.filter_cons, h]

theorem cntApp_append (a b : List ((Nat × Nat × Nat) × Approval))
    (id : Nat) : cntApp (a ++ b) id = cntApp a id + cntApp b id := by
  induction a with
  | nil => simp [cntApp]
  | cons e t ih =>
    by_cases h : e.1.1 = id <;> simp [cntApp_cons, h, ih] <;> omega

theorem cntApp_eq_zero (l : List ((Nat × Nat × Nat) × Approval)) (id : Nat)
    (h : ∀ e ∈ l, ¬ e.1.1 = id) : cntApp l id = 0 := by
  induction l with
  | nil => rfl
  | cons e t ih =>
    rw [cntApp_cons, if_neg (h e (by simp))]
    exact ih fun x hx => h x (by simp [hx])

theorem cntApp_eq_length (l : List ((Nat × Nat × Nat) × Approval))
    (id : Nat) (h : ∀ e ∈ l, e.1.1 = id) : cntApp l id = l.length := by
  induction l with
  | nil => rfl
  | cons e t ih =>
    rw [cntApp_cons, if_pos (h e (by simp))]
    simp [ih fun x hx => h x (by simp [hx])]

/-! ## Drain-loop lemmas -/

theorem drainSplitGo_append {α : Type} (lim : Nat) (removed : Nat)
    (l : List α) :
    (drainSplitGo lim removed l).1 ++ (drainSplitGo lim removed l).2 = l := by
  induction l generalizing removed with
  | nil => rfl
  | cons e t ih =>
    by_cases h : lim ≤ removed + 1
    · simp [drainSplitGo, h]
    · simp [drainSplitGo, h, ih (removed + 1)]

theorem drainSplit_append {α : Type} (lim : Nat) (l : List α) :
    (drainSplit lim l).1 ++ (drainSplit lim l).2 = l :=
  drainSplitGo_append lim 0 l

theorem drainSplitGo_length {α : Type} (lim : Nat) (removed : Nat)
    (l : List α) (h : removed < lim) :
    (drainSplitGo lim removed l).1.length = min l.length (lim - removed) := by
  induction l generalizing removed with
  | nil => simp [drainSplitGo]
  | cons e t ih =>
    by_cases hb : lim ≤ removed + 1
    · have : lim - removed = 1 := by omega
      simp [drainSplitGo, hb, this]
    · have h1 : removed + 1 < lim := by omega
      simp only [drainSplitGo, if_neg hb, List.length_cons]
      rw [ih (removed + 1) h1]
      omega

theorem drainSplit_length {α : Type} (lim : Nat) (l : List α)
    (h : 1 ≤ lim) : (drainSplit lim l).1.length = min l.length lim := by
  rw [drainSplit, drainSplitGo_length lim 0 l (by omega)]
  simp

theorem mem_drainSplit_right {α : Type} {lim : Nat} {l : List α} {e : α}
    (h : e ∈ (drainSplit lim l).2) : e ∈ l := by
  rw [← drainSplit_append lim l]
  exact List.mem_append_right _ h

theorem mem_drainSplit_left {α : Type} {lim : Nat} {l : List α} {e : α}
    (h : e ∈ (drainSplit lim l).1) : e ∈ l := by
  rw [← drainSplit_append lim l]
  exact List.mem_append_left _ h

/-! ## Teardown-fold lemmas -/

/-- Fields of the registry record after draining a batch of account
records through `dead_account`: only `accounts` (minus the batch size) and
`sufficients` change. -/
theorem foldl_dead_fields (proc : List ((Nat × Nat) × AssetAccount))
    (d : AssetDetails) (c : Currency) :
    (proc.foldl (fun (p : AssetDetails × Currency) e =>
        deadAccount e.1.2 e.2 p.1 p.2) (d, c)).1.supply = d.supply ∧
    (proc.foldl (fun (p : AssetDetails × Currency) e =>
        deadAccount e.1.2 e.2 p.1 p.2) (d, c)).1.status = d.status ∧
    (proc.foldl (fun (p : AssetDetails × Currency) e =>
        deadAccount e.1.2 e.2 p.1 p.2) (d, c)).1.min_balance =
      d.min_balance ∧
    (proc.foldl (fun (p : AssetDetails × Currency) e =>
        deadAccount e.1.2 e.2 p.1 p.2) (d, c)).1.approvals = d.approvals ∧
    (proc.foldl (fun (p : AssetDetails × Currency) e =>
        deadAccount e.1.2 e.2 p.1 p.2) (d, c)).1.accounts =
      d.accounts - proc.length := by
  induction proc generalizing d c with
  | nil => simp
  | cons e t ih =>
    simp only [List.foldl_cons, List.length_cons]
    have := ih (deadAccount e.1.2 e.2 d c).1 (deadAccount e.1.2 e.2 d c).2
    simp only [Prod.mk.eta] at this
    refine ⟨this.1, this.2.1, this.2.2.1, this.2.2.2.1, ?_⟩
    rw [this.2.2.2.2]
    show d.accounts - 1 - t.length = _
    omega

/-- Fields of the registry record after draining a batch of approval
records: only `approvals` changes, decremented once per entry. -/
theorem foldl_appr_fields (proc : List ((Nat × Nat × Nat) × Approval))
    (d : AssetDetails) (c : Currency) :
    (proc.foldl (fun (p : AssetDetails × Currency) e =>
        ({ p.1 with approvals := p.1.approvals - 1 },
          p.2.unreserve e.1.2.1 e.2.deposit)) (d, c)).1 =
      { d with approvals := d.approvals - proc.length } := by
  induction proc generalizing d c with
  | nil => simp
  | cons e t ih =>
    simp only [List.foldl_cons, List.length_cons]
    rw [ih]
    show ({ d with approvals := d.approvals - 1 - t.length } : AssetDetails)
      = _
    have : d.approvals - 1 - t.length = d.approvals - (t.length + 1) := by
      omega
    rw [this]

/-! ## Inversion lemmas for the balance-mutation primitives -/

theorem increaseBalance_ok {cfg : Config} {id who amount supplyDelta : Nat}
    {s s1 : State}
    (h : increaseBalance cfg id who amount supplyDelta s = .ok s1) :
    (amount = 0 ∧ s1 = s) ∨
    (∃ d acct, alookup s.assets id = some d ∧
      alookup s.accounts (id, who) = some acct ∧
      d.min_balance ≤ acct.balance + amount ∧
      s1 = { s with
        accounts := aset s.accounts (id, who)
          { acct with balance := acct.balance + amount },
        assets := aset s.assets id
          { d with supply := d.supply + supplyDelta } }) ∨
    (∃ d reason, alookup s.assets id = some d ∧
      alookup s.accounts (id, who) = none ∧
      d.min_balance ≤ amount ∧
      s1 = { s with
        accounts := aset s.accounts (id, who)
          { balance := amount, is_frozen := false, reason := reason },
        assets := aset s.assets id
          { d with
              supply := d.supply + supplyDelta,
              accounts := d.accounts + 1,
              sufficients := if d.is_sufficient then
                d.sufficients + 1 else d.sufficients } }) := by
  unfold increaseBalance at h
  split at h
  · simp only [Except.ok.injEq] at h
    exact Or.inl ⟨by assumption, h.symm⟩
  · split at h
    · exact (Except.noConfusion h)
    next d hd =>
      split at h
      · exact (Except.noConfusion h)
      · split at h
        next acct hacct =>
          split at h
          · exact (Except.noConfusion h)
          · split at h
            · exact (Except.noConfusion h)
            · split at h
              · exact (Except.noConfusion h)
              · split at h
                · exact (Except.noConfusion h)
                next hmin _ =>
                  simp only [Except.ok.injEq] at h
                  exact Or.inr (Or.inl ⟨d, acct, hd, hacct,
                    by omega, h.symm⟩)
        next hacct =>
          split at h
          · exact (Except.noConfusion h)
          · split at h
            · exact (Except.noConfusion h)
            · split at h
              · exact (Except.noConfusion h)
              next reason hreason =>
                split at h
                · exact (Except.noConfusion h)
                next hmin _ _ =>
                  simp only [Except.ok.injEq] at h
                  exact Or.inr (Or.inr ⟨d, reason, hd, hacct,
                    by omega, h.symm⟩)

theorem debitAmount_le {minB b amount : Nat} {ka be : Bool} {actual : Nat}
    (h : debitAmount minB b amount ka be = .ok actual) : actual ≤ b := by
  unfold debitAmount at h
  split at h
  · split at h
    · simp only [Except.ok.injEq] at h; omega
    · split at h
      · simp only [Except.ok.injEq] at h; omega
      · exact (Except.noConfusion h)
  · split at h
    · split at h
      · simp only [Except.ok.injEq] at h; omega
      · exact (Except.noConfusion h)
    · simp only [Except.ok.injEq] at h
      split at h <;> omega

theorem debitAmount_floor {minB b amount : Nat} {ka be : Bool}
    {actual : Nat} (h : debitAmount minB b amount ka be = .ok actual)
    (hnz : amount ≠ 0) :
    b - actual = 0 ∨ minB ≤ b - actual ∨ actual = 0 := by
  unfold debitAmount at h
  split at h
  · split at h
    · simp only [Except.ok.injEq] at h
      subst h
      omega
    · split at h
      · simp only [Except.ok.injEq] at h
        subst h
        omega
      · exact (Except.noConfusion h)
  · split at h
    · split at h
      · simp only [Except.ok.injEq] at h
        subst h
        omega
      · exact (Except.noConfusion h)
    · simp only [Except.ok.injEq] at h
      split at h <;> omega

theorem decreaseBalance_ok {id who amount : Nat} {ka be byp : Bool}
    {s : State} {actual : Nat} {s1 : State}
    (h : decreaseBalance id who amount ka be byp s = .ok (actual, s1)) :
    (amount = 0 ∧ actual = 0 ∧ s1 = s) ∨
    (∃ d acct, alookup s.assets id = some d ∧
      alookup s.accounts (id, who) = some acct ∧
      actual ≤ acct.balance ∧
      ((acct.balance - actual = 0 ∧
        s1 = { s with
          accounts := aerase s.accounts (id, who),
          assets := aset s.assets id
            (deadAccount who acct d s.currency).1,
          currency := (deadAccount who acct d s.currency).2 }) ∨
       (acct.balance - actual ≠ 0 ∧
        (d.min_balance ≤ acct.balance - actual ∨ actual = 0) ∧
        s1 = { s with
          accounts := aset s.accounts (id, who)
            { acct with balance := acct.balance - actual } }))) := by
  unfold decreaseBalance at h
  split at h
  · simp only [Except.ok.injEq, Prod.mk.injEq] at h
    exact Or.inl ⟨by assumption, h.1.symm, h.2.symm⟩
  next hnz =>
    split at h
    · exact (Except.noConfusion h)
    next d hd =>
      split at h
      · exact (Except.noConfusion h)
      next acct hacct =>
        split at h
        · exact (Except.noConfusion h)
        · split at h
          · exact (Except.noConfusion h)
          · split at h
            · exact (Except.noConfusion h)
            next act hact =>
              simp only [Except.ok.injEq] at h
              rw [settleDebit] at h
              have hle := debitAmount_le hact
              have hfl := debitAmount_floor hact hnz
              split at h
              next hzero =>
                simp only [Prod.mk.injEq] at h
                obtain ⟨h1, h2⟩ := h
                subst h1
                exact Or.inr ⟨d, acct, hd, hacct, hle,
                  Or.inl ⟨hzero, h2.symm⟩⟩
              next hzero =>
                simp only [Prod.mk.injEq] at h
                obtain ⟨h1, h2⟩ := h
                subst h1
                refine Or.inr ⟨d, acct, hd, hacct, hle,
                  Or.inr ⟨hzero, ?_, h2.symm⟩⟩
                rcases hfl with hf | hf | hf
                · exact absurd hf hzero
                · exact Or.inl hf
                · exact Or.inr hf

/-! ## Preservation helpers -/

theorem cntAcc_aset_existing {l : List ((Nat × Nat) × AssetAccount)}
    {k : Nat × Nat} {a : AssetAccount} (v : AssetAccount)
    (hn : (l.map Prod.fst).Nodup) (hk : alookup l k = some a) (j : Nat) :
    cntAcc (aset l k v) j = cntAcc l j := by
  by_cases hj : k.1 = j
  · subst hj
    rw [aset, cntAcc_cons, if_pos rfl, cntAcc_decomp hn hk]
    omega
  · rw [aset, cntAcc_cons, if_neg hj, cntAcc_aerase_ne l k j hj]

theorem sumBal_aset_existing {l : List ((Nat × Nat) × AssetAccount)}
    {k : Nat × Nat} {a : AssetAccount} (v : AssetAccount)
    (hn : (l.map Prod.fst).Nodup) (hk : alookup l k = some a)
    (hb : v.balance = a.balance) (j : Nat) :
    sumBal (aset l k v) j = sumBal l j := by
  by_cases hj : k.1 = j
  · subst hj
    rw [aset, sumBal_cons, if_pos rfl, sumBal_decomp hn hk, hb]
  · rw [aset, sumBal_cons, if_neg hj, sumBal_aerase_ne l k j hj]

theorem sumBal_aset_existing_add {l : List ((Nat × Nat) × AssetAccount)}
    {k : Nat × Nat} {a : AssetAccount} (v : AssetAccount)
    (hn : (l.map Prod.fst).Nodup) (hk : alookup l k = some a) :
    sumBal (aset l k v) k.1 + a.balance = sumBal l k.1 + v.balance := by
  have h1 : sumBal (aset l k v) k.1 = v.balance + sumBal (aerase l k) k.1 := by
    rw [aset, sumBal_cons]
    simp
  rw [h1, sumBal_decomp hn hk]
  omega

theorem aset_of_none {κ ν : Type} [DecidableEq κ]
    {l : List (κ × ν)} {k : κ} (v : ν) (hk : alookup l k = none) :
    aset l k v = (k, v) :: l := by
  rw [aset, aerase_of_alookup_none l k hk]

/-- `WF` and `Floor` only inspect the `assets` and `accounts` maps. -/
theorem Struct_congr {s t : State} (ha : t.assets = s.assets)
    (hb : t.accounts = s.accounts) (h : Struct s) : Struct t := by
  unfold Struct KeysOk NoOrphans CountersOk at h ⊢
  rw [ha, hb]
  exact h

theorem WF_congr {s t : State} (ha : t.assets = s.assets)
    (hb : t.accounts = s.accounts) (h : WF s) : WF t := by
  unfold WF at h ⊢
  refine ⟨Struct_congr ha hb h.1, ?_⟩
  unfold ConservedLive at h ⊢
  rw [ha, hb]
  exact h.2

theorem Floor_congr {s t : State} (ha : t.assets = s.assets)
    (hb : t.accounts = s.accounts) (h : Floor s) : Floor t := by
  unfold Floor at h ⊢
  rw [ha, hb]
  exact h

/-- No account record belongs to an unregistered asset. -/
theorem no_entries_of_unregistered {s : State} (hno : NoOrphans s)
    {id : Nat} (hid : alookup s.assets id = none) :
    ∀ e ∈ s.accounts, ¬ e.1.1 = id := by
  intro e he hc
  have := hno e he
  rw [hc, hid] at this
  exact (Bool.false_ne_true this)

/-- A zero `accounts` counter means no stored account record (via counter
accuracy). -/
theorem no_entries_of_cnt_zero {l : List ((Nat × Nat) × AssetAccount)}
    {id : Nat} (h : cntAcc l id = 0) : ∀ e ∈ l, ¬ e.1.1 = id := by
  intro e he hc
  induction l with
  | nil => simp at he
  | cons x t ih =>
    rw [cntAcc_cons] at h
    rcases List.mem_cons.mp he with hx | hx
    · rw [← hx, if_pos hc] at h
      omega
    · by_cases hxi : x.1.1 = id
      · rw [if_pos hxi] at h; omega
      · rw [if_neg hxi] at h; exact ih h hx

/-- `ConservedLive` phrased through lookups (requires no-duplicate keys in
one direction only). -/
theorem ConservedLive_lookup {s : State} (h : ConservedLive s) :
    ∀ id d, alookup s.assets id = some d → d.status = .Live →
      d.supply = sumBal s.accounts id :=
  fun id d hd hl => h (id, d) (alookup_mem hd) hl

theorem ConservedLive_of_lookup {s : State}
    (hk : (s.assets.map Prod.fst).Nodup)
    (h : ∀ id d, alookup s.assets id = some d → d.status = .Live →
      d.supply = sumBal s.accounts id) : ConservedLive s :=
  fun e he hl => h e.1 e.2 (alookup_eq_of_mem_nodup hk he) hl

theorem Floor_lookup {s : State} (h : Floor s) :
    ∀ k a, alookup s.accounts k = some a → 0 < a.balance →
      ∀ d, alookup s.assets k.1 = some d → d.min_balance ≤ a.balance :=
  fun k a ha hpos d hd => h (k, a) (alookup_mem ha) hpos d hd

/-- Replacing one registry record while keeping the `accounts` counter
(and the whole account ledger) preserves the structural invariants. -/
theorem Struct_update_asset {s t : State} {id : Nat} {d d' : AssetDetails}
    (hst : Struct s) (hd : alookup s.assets id = some d)
    (ht : t.assets = aset s.assets id d') (hacc : t.accounts = s.accounts)
    (hcnt : d'.accounts = d.accounts) : Struct t := by
  obtain ⟨⟨hk1, hk2⟩, hno, hc⟩ := hst
  refine ⟨⟨?_, ?_⟩, ?_, ?_⟩
  · rw [ht]; exact keys_nodup_aset _ _ _ hk1
  · rw [hacc]; exact hk2
  · intro e he
    rw [hacc] at he
    rw [ht]
    by_cases hid : e.1.1 = id
    · rw [hid, alookup_aset_self]; rfl
    · rw [alookup_aset_ne _ _ _ _ hid]; exact hno e he
  · intro e he
    rw [ht] at he
    rw [hacc]
    rcases mem_aset he with he | he
    · rw [he]
      show d'.accounts = cntAcc s.accounts id
      rw [hcnt]
      exact hc (id, d) (alookup_mem hd)
    · exact hc e he

/-- Replacing one registry record while keeping `supply` and the
`accounts` counter (and the whole account ledger) preserves `WF`; the
status may change arbitrarily towards `Destroying` (conservation is only
demanded of Live assets). -/
theorem WF_update_asset {s t : State} {id : Nat} {d d' : AssetDetails}
    (hwf : WF s) (hd : alookup s.assets id = some d)
    (ht : t.assets = aset s.assets id d') (hacc : t.accounts = s.accounts)
    (hsup : d'.status = .Live → d'.supply = d.supply ∧ d.status = .Live)
    (hcnt : d'.accounts = d.accounts) : WF t := by
  obtain ⟨hstr, hcons⟩ := hwf
  refine ⟨Struct_update_asset hstr hd ht hacc hcnt, ?_⟩
  intro e he hlive
  rw [ht] at he
  rw [hacc]
  rcases mem_aset he with he | he
  · rw [he] at hlive ⊢
    show d'.supply = sumBal s.accounts id
    obtain ⟨hs, hdl⟩ := hsup hlive
    rw [hs]
    exact hcons (id, d) (alookup_mem hd) hdl
  · exact hcons e he hlive

/-- Replacing one registry record while keeping `min_balance` (and the
whole account ledger) preserves the floor invariant. -/
theorem Floor_update_asset {s t : State} {id : Nat} {d d' : AssetDetails}
    (hf : Floor s) (hd : alookup s.assets id = some d)
    (ht : t.assets = aset s.assets id d') (hacc : t.accounts = s.accounts)
    (hmin : d'.min_balance = d.min_balance) : Floor t := by
  intro e he hpos dd hdd
  rw [hacc] at he
  rw [ht] at hdd
  by_cases hid : e.1.1 = id
  · rw [hid, alookup_aset_self, Option.some_inj] at hdd
    rw [← hdd, hmin]
    exact hf e he hpos d (hid ▸ hd)
  · rw [alookup_aset_ne _ _ _ _ hid] at hdd
    exact hf e he hpos dd hdd

/-- Registering a fresh asset record (empty counters, zero supply)
preserves `WF` and the floor. -/
theorem WF_new_asset {s t : State} {id : Nat} {d' : AssetDetails}
    (hwf : WF s) (hd : alookup s.assets id = none)
    (ht : t.assets = aset s.assets id d') (hacc : t.accounts = s.accounts)
    (hsup : d'.supply = 0) (hcnt : d'.accounts = 0) : WF t := by
  obtain ⟨⟨⟨hk1, hk2⟩, hno, hc⟩, hcons⟩ := hwf
  have hnone := no_entries_of_unregistered hno hd
  refine ⟨⟨⟨?_, ?_⟩, ?_, ?_⟩, ?_⟩
  · rw [ht]; exact keys_nodup_aset _ _ _ hk1
  · rw [hacc]; exact hk2
  · intro e he
    rw [hacc] at he
    rw [ht]
    by_cases hid : e.1.1 = id
    · rw [hid, alookup_aset_self]; rfl
    · rw [alookup_aset_ne _ _ _ _ hid]; exact hno e he
  · intro e he
    rw [ht] at he
    rw [hacc]
    rcases mem_aset he with he | he
    · rw [he]
      show d'.accounts = cntAcc s.accounts id
      rw [hcnt, cntAcc_eq_zero s.accounts id hnone]
    · exact hc e he
  · intro e he hlive
    rw [ht] at he
    rw [hacc]
    rcases mem_aset he with he | he
    · rw [he]
      show d'.supply = sumBal s.accounts id
      rw [hsup, sumBal_eq_zero s.accounts id hnone]
    · exact hcons e he hlive

theorem Floor_new_asset {s t : State} {id : Nat} {d' : AssetDetails}
    (hf : Floor s) (hno : NoOrphans s) (hd : alookup s.assets id = none)
    (ht : t.assets = aset s.assets id d') (hacc : t.accounts = s.accounts) :
    Floor t := by
  intro e he hpos dd hdd
  rw [hacc] at he
  rw [ht] at hdd
  by_cases hid : e.1.1 = id
  · exact absurd hid (no_entries_of_unregistered hno hd e he)
  · rw [alookup_aset_ne _ _ _ _ hid] at hdd
    exact hf e he hpos dd hdd

/-- Rewriting one account record without changing its balance (and leaving
the registry untouched) preserves `WF` and the floor. -/
theorem WF_update_account {s t : State} {k : Nat × Nat}
    {a v : AssetAccount} (hwf : WF s) (ha : alookup s.accounts k = some a)
    (ht : t.accounts = aset s.accounts k v) (hassets : t.assets = s.assets)
    (hb : v.balance = a.balance) : WF t := by
  obtain ⟨⟨⟨hk1, hk2⟩, hno, hc⟩, hcons⟩ := hwf
  refine ⟨⟨⟨?_, ?_⟩, ?_, ?_⟩, ?_⟩
  · rw [hassets]; exact hk1
  · rw [ht]; exact keys_nodup_aset _ _ _ hk2
  · intro e he
    rw [ht] at he
    rw [hassets]
    rcases mem_aset he with he | he
    · rw [he]
      exact hno (k, a) (alookup_mem ha)
    · exact hno e he
  · intro e he
    rw [hassets] at he
    rw [ht, cntAcc_aset_existing v hk2 ha]
    exact hc e he
  · intro e he hlive
    rw [hassets] at he
    rw [ht, sumBal_aset_existing v hk2 ha hb]
    exact hcons e he hlive

/-- Removing the entries of one asset does not change another asset's
balance sum. -/
theorem sumBal_filter_out (l : List ((Nat × Nat) × AssetAccount))
    (id j : Nat) (h : ¬ id = j) :
    sumBal (l.filter (fun e => decide (¬ e.1.1 = id))) j = sumBal l j := by
  induction l with
  | nil => rfl
  | cons e t ih =>
    rw [List.filter_cons]
    by_cases he : e.1.1 = id
    · have h1 : ¬ e.1.1 = j := by rw [he]; exact h
      rw [if_neg (by simp [he]), sumBal_cons, if_neg h1, ih]
    · rw [if_pos (by simp [he]), sumBal_cons, sumBal_cons, ih]

theorem cntAcc_filter_out (l : List ((Nat × Nat) × AssetAccount))
    (id j : Nat) (h : ¬ id = j) :
    cntAcc (l.filter (fun e => decide (¬ e.1.1 = id))) j = cntAcc l j := by
  induction l with
  | nil => rfl
  | cons e t ih =>
    rw [List.filter_cons]
    by_cases he : e.1.1 = id
    · have h1 : ¬ e.1.1 = j := by rw [he]; exact h
      rw [if_neg (by simp [he]), cntAcc_cons, if_neg h1, ih]
    · rw [if_pos (by simp [he]), cntAcc_cons, cntAcc_cons, ih]

theorem deadAccount_accounts (who : Nat) (a : AssetAccount)
    (d : AssetDetails) (c : Currency) :
    (deadAccount who a d c).1.accounts = d.accounts - 1 := rfl

theorem deadAccount_supply (who : Nat) (a : AssetAccount)
    (d : AssetDetails) (c : Currency) :
    (deadAccount who a d c).1.supply = d.supply := rfl

theorem deadAccount_status (who : Nat) (a : AssetAccount)
    (d : AssetDetails) (c : Currency) :
    (deadAccount who a d c).1.status = d.status := rfl

theorem deadAccount_min_balance (who : Nat) (a : AssetAccount)
    (d : AssetDetails) (c : Currency) :
    (deadAccount who a d c).1.min_balance = d.min_balance := rfl

theorem Floor_update_account {s t : State} {k : Nat × Nat}
    {a v : AssetAccount} (hf : Floor s) (hkeys : KeysOk s)
    (ha : alookup s.accounts k = some a)
    (ht : t.accounts = aset s.accounts k v) (hassets : t.assets = s.assets)
    (hb : v.balance = a.balance) : Floor t := by
  intro e he hpos dd hdd
  rw [hassets] at hdd
  rw [ht] at he
  rcases mem_aset he with he | he
  · rw [he] at hpos hdd ⊢
    show dd.min_balance ≤ v.balance
    rw [hb] at hpos ⊢
    exact hf (k, a) (alookup_mem ha) hpos dd hdd
  · exact hf e he hpos dd hdd

theorem mem_aset' {κ ν : Type} [DecidableEq κ] {l : List (κ × ν)} {k : κ}
    {v : ν} {e : κ × ν} (h : e ∈ aset l k v) :
    e = (k, v) ∨ (e ∈ l ∧ e.1 ≠ k) := by
  simp only [aset, List.mem_cons] at h
  rcases h with h | h
  · exact Or.inl h
  · exact Or.inr ⟨mem_aerase h, mem_aerase_key h⟩

theorem cntAcc_aset_other (l : List ((Nat × Nat) × AssetAccount))
    (k : Nat × Nat) (v : AssetAccount) (j : Nat) (h : ¬ k.1 = j) :
    cntAcc (aset l k v) j = cntAcc l j := by
  rw [aset, cntAcc_cons, if_neg h, cntAcc_aerase_ne l k j h]

theorem sumBal_aset_other (l : List ((Nat × Nat) × AssetAccount))
    (k : Nat × Nat) (v : AssetAccount) (j : Nat) (h : ¬ k.1 = j) :
    sumBal (aset l k v) j = sumBal l j := by
  rw [aset, sumBal_cons, if_neg h, sumBal_aerase_ne l k j h]

theorem cntAcc_aset_new {l : List ((Nat × Nat) × AssetAccount)}
    {k : Nat × Nat} (v : AssetAccount) (hk : alookup l k = none) :
    cntAcc (aset l k v) k.1 = cntAcc l k.1 + 1 := by
  rw [aset_of_none v hk, cntAcc_cons, if_pos rfl]

theorem sumBal_aset_new {l : List ((Nat × Nat) × AssetAccount)}
    {k : Nat × Nat} (v : AssetAccount) (hk : alookup l k = none) :
    sumBal (aset l k v) k.1 = v.balance + sumBal l k.1 := by
  rw [aset_of_none v hk, sumBal_cons, if_pos rfl]

/-! ## Preservation through the balance-mutation primitives -/

theorem increase_preserves {cfg : Config} {id who amount supplyDelta : Nat}
    {s s1 : State}
    (h : increaseBalance cfg id who amount supplyDelta s = .ok s1)
    (hstr : Struct s) : Struct s1 ∧ (Floor s → Floor s1) := by
  obtain ⟨⟨hk1, hk2⟩, hno, hc⟩ := hstr
  rcases increaseBalance_ok h with ⟨_, rfl⟩ |
    ⟨d, acct, hd, hacct, hmin, rfl⟩ | ⟨d, reason, hd, hacct, hmin, rfl⟩
  · exact ⟨⟨⟨hk1, hk2⟩, hno, hc⟩, fun hf => hf⟩
  · constructor
    · refine ⟨⟨keys_nodup_aset _ _ _ hk1, keys_nodup_aset _ _ _ hk2⟩,
        ?_, ?_⟩
      · intro e he
        rcases mem_aset' he with he | ⟨he, _⟩
        · rw [he]
          simp [alookup_aset_self]
        · by_cases hid : e.1.1 = id
          · rw [hid]
            simp [alookup_aset_self]
          · show (alookup (aset s.assets id _) e.1.1).isSome
            rw [alookup_aset_ne _ _ _ _ hid]
            exact hno e he
      · intro e he
        rcases mem_aset' he with he | ⟨he, hne⟩
        · rw [he]
          show _ = cntAcc (aset s.accounts (id, who) _) id
          rw [cntAcc_aset_existing _ hk2 hacct]
          exact hc (id, d) (alookup_mem hd)
        · show _ = cntAcc (aset s.accounts (id, who) _) e.1
          rw [cntAcc_aset_existing _ hk2 hacct]
          exact hc e he
    · intro hf
      intro e he hpos dd hdd
      rcases mem_aset' he with he | ⟨he, hne⟩
      · rw [he] at hpos hdd ⊢
        show dd.min_balance ≤ acct.balance + amount
        have : alookup (aset s.assets id
            { d with supply := d.supply + supplyDelta }) id = some dd := hdd
        rw [alookup_aset_self, Option.some_inj] at this
        rw [← this]
        exact hmin
      · show dd.min_balance ≤ e.2.balance
        by_cases hid : e.1.1 = id
        · rw [hid, alookup_aset_self, Option.some_inj] at hdd
          have hmb : dd.min_balance = d.min_balance := by rw [← hdd]
          rw [hmb]
          exact hf e he hpos d (hid ▸ hd)
        · rw [alookup_aset_ne _ _ _ _ hid] at hdd
          exact hf e he hpos dd hdd
  · constructor
    · refine ⟨⟨keys_nodup_aset _ _ _ hk1, keys_nodup_aset _ _ _ hk2⟩,
        ?_, ?_⟩
      · intro e he
        rcases mem_aset' he with he | ⟨he, _⟩
        · rw [he]
          simp [alookup_aset_self]
        · by_cases hid : e.1.1 = id
          · rw [hid]
            simp [alookup_aset_self]
          · show (alookup (aset s.assets id _) e.1.1).isSome
            rw [alookup_aset_ne _ _ _ _ hid]
            exact hno e he
      · intro e he
        rcases mem_aset' he with he | ⟨he, hne⟩
        · rw [he]
          show d.accounts + 1 = cntAcc (aset s.accounts (id, who) _) id
          rw [cntAcc_aset_new _ hacct]
          rw [hc (id, d) (alookup_mem hd)]
        · show _ = cntAcc (aset s.accounts (id, who) _) e.1
          rw [cntAcc_aset_other _ _ _ _ (fun hcc => hne hcc.symm)]
          exact hc e he
    · intro hf
      intro e he hpos dd hdd
      rcases mem_aset' he with he | ⟨he, hne⟩
      · rw [he] at hpos hdd ⊢
        show dd.min_balance ≤ amount
        have : alookup (aset s.assets id _) id = some dd := hdd
        rw [alookup_aset_self, Option.some_inj] at this
        rw [← this]
        exact hmin
      · show dd.min_balance ≤ e.2.balance
        by_cases hid : e.1.1 = id
        · rw [hid, alookup_aset_self, Option.some_inj] at hdd
          have hmb : dd.min_balance = d.min_balance := by rw [← hdd]
          rw [hmb]
          exact hf e he hpos d (hid ▸ hd)
        · rw [alookup_aset_ne _ _ _ _ hid] at hdd
          exact hf e he hpos dd hdd

theorem increase_deltas {cfg : Config} {id who amount supplyDelta : Nat}
    {s s1 : State}
    (h : increaseBalance cfg id who amount supplyDelta s = .ok s1)
    (hk2 : (s.accounts.map Prod.fst).Nodup) :
    (∀ j, ¬ j = id → alookup s1.assets j = alookup s.assets j) ∧
    (∀ j, ¬ j = id → sumBal s1.accounts j = sumBal s.accounts j) ∧
    ((amount = 0 ∧ s1 = s) ∨
      ∃ d d', alookup s.assets id = some d ∧
        alookup s1.assets id = some d' ∧
        d'.supply = d.supply + supplyDelta ∧ d'.status = d.status ∧
        d'.min_balance = d.min_balance ∧
        sumBal s1.accounts id = sumBal s.accounts id + amount) := by
  rcases increaseBalance_ok h with ⟨_, rfl⟩ |
    ⟨d, acct, hd, hacct, hmin, rfl⟩ | ⟨d, reason, hd, hacct, hmin, rfl⟩
  · exact ⟨fun _ _ => rfl, fun _ _ => rfl, Or.inl ⟨by assumption, rfl⟩⟩
  · refine ⟨?_, ?_, Or.inr ⟨d, _, hd, alookup_aset_self _ _ _, rfl, rfl,
      rfl, ?_⟩⟩
    · intro j hj
      exact alookup_aset_ne _ _ _ _ hj
    · intro j hj
      exact sumBal_aset_other _ _ _ _ fun hcc => hj hcc.symm
    · have h1 : sumBal (aset s.accounts (id, who)
          { acct with balance := acct.balance + amount }) id +
          acct.balance = sumBal s.accounts id + (acct.balance + amount) :=
        sumBal_aset_existing_add _ hk2 hacct
      show sumBal (aset s.accounts (id, who) _) id =
        sumBal s.accounts id + amount
      omega
  · refine ⟨?_, ?_, Or.inr ⟨d, _, hd, alookup_aset_self _ _ _, rfl, rfl,
      rfl, ?_⟩⟩
    · intro j hj
      exact alookup_aset_ne _ _ _ _ hj
    · intro j hj
      exact sumBal_aset_other _ _ _ _ fun hcc => hj hcc.symm
    · have h1 : sumBal (aset s.accounts (id, who)
          { balance := amount, is_frozen := false, reason := reason }) id =
          amount + sumBal s.accounts id :=
        sumBal_aset_new _ hacct
      show sumBal (aset s.accounts (id, who) _) id =
        sumBal s.accounts id + amount
      omega

theorem decrease_preserves {id who amount : Nat} {ka be byp : Bool}
    {s : State} {actual : Nat} {s1 : State}
    (h : decreaseBalance id who amount ka be byp s = .ok (actual, s1))
    (hstr : Struct s) : Struct s1 ∧ (Floor s → Floor s1) := by
  obtain ⟨⟨hk1, hk2⟩, hno, hc⟩ := hstr
  rcases decreaseBalance_ok h with ⟨_, _, rfl⟩ |
    ⟨d, acct, hd, hacct, hle, ⟨hzero, rfl⟩ | ⟨hzero, hfloor, rfl⟩⟩
  · exact ⟨⟨⟨hk1, hk2⟩, hno, hc⟩, fun hf => hf⟩
  · constructor
    · refine ⟨⟨keys_nodup_aset _ _ _ hk1, keys_nodup_aerase _ _ hk2⟩,
        ?_, ?_⟩
      · intro e he
        have he' := mem_aerase he
        by_cases hid : e.1.1 = id
        · rw [hid]
          simp [alookup_aset_self]
        · show (alookup (aset s.assets id _) e.1.1).isSome
          rw [alookup_aset_ne _ _ _ _ hid]
          exact hno e he'
      · intro e he
        rcases mem_aset' he with he | ⟨he, hne⟩
        · rw [he]
          show (deadAccount who acct d s.currency).1.accounts =
            cntAcc (aerase s.accounts (id, who)) id
          rw [deadAccount_accounts]
          have h1 : cntAcc s.accounts id =
              1 + cntAcc (aerase s.accounts (id, who)) id :=
            cntAcc_decomp hk2 hacct
          have h2 : d.accounts = cntAcc s.accounts id :=
            hc (id, d) (alookup_mem hd)
          omega
        · show _ = cntAcc (aerase s.accounts (id, who)) e.1
          rw [cntAcc_aerase_ne _ _ _ (fun hcc => hne hcc.symm)]
          exact hc e he
    · intro hf e he hpos dd hdd
      have he' := mem_aerase he
      by_cases hid : e.1.1 = id
      · rw [hid, alookup_aset_self, Option.some_inj] at hdd
        have hmb : dd.min_balance = d.min_balance := by
          rw [← hdd, deadAccount_min_balance]
        rw [hmb]
        exact hf e he' hpos d (hid ▸ hd)
      · rw [alookup_aset_ne _ _ _ _ hid] at hdd
        exact hf e he' hpos dd hdd
  · constructor
    · refine ⟨⟨hk1, keys_nodup_aset _ _ _ hk2⟩, ?_, ?_⟩
      · intro e he
        rcases mem_aset' he with he | ⟨he, _⟩
        · rw [he]
          show (alookup s.assets ((id, who), _).1.1).isSome
          simp [hd]
        · exact hno e he
      · intro e he
        show _ = cntAcc (aset s.accounts (id, who) _) e.1
        rw [cntAcc_aset_existing _ hk2 hacct]
        exact hc e he
    · intro hf e he hpos dd hdd
      rcases mem_aset' he with he | ⟨he, _⟩
      · rw [he] at hpos hdd ⊢
        show dd.min_balance ≤ acct.balance - actual
        have hdd' : alookup s.assets id = some dd := hdd
        rw [hd, Option.some_inj] at hdd'
        subst hdd'
        rcases hfloor with hfl | hfl
        · exact hfl
        · rw [hfl] at hpos ⊢
          simp only [Nat.sub_zero] at hpos ⊢
          exact hf ((id, who), acct) (alookup_mem hacct) hpos d hd
      · exact hf e he hpos dd hdd

theorem decrease_deltas {id who amount : Nat} {ka be byp : Bool}
    {s : State} {actual : Nat} {s1 : State}
    (h : decreaseBalance id who amount ka be byp s = .ok (actual, s1))
    (hk2 : (s.accounts.map Prod.fst).Nodup) :
    (∀ j, ¬ j = id → alookup s1.assets j = alookup s.assets j) ∧
    (∀ j, ¬ j = id → sumBal s1.accounts j = sumBal s.accounts j) ∧
    ((amount = 0 ∧ actual = 0 ∧ s1 = s) ∨
      ∃ d d', alookup s.assets id = some d ∧
        alookup s1.assets id = some d' ∧
        d'.supply = d.supply ∧ d'.status = d.status ∧
        d'.min_balance = d.min_balance ∧
        sumBal s1.accounts id + actual = sumBal s.accounts id) := by
  rcases decreaseBalance_ok h with ⟨h0, ha0, rfl⟩ |
    ⟨d, acct, hd, hacct, hle, ⟨hzero, rfl⟩ | ⟨hzero, hfloor, rfl⟩⟩
  · exact ⟨fun _ _ => rfl, fun _ _ => rfl, Or.inl ⟨h0, ha0, rfl⟩⟩
  · refine ⟨?_, ?_, Or.inr ⟨d, _, hd, alookup_aset_self _ _ _,
      deadAccount_supply _ _ _ _, deadAccount_status _ _ _ _,
      deadAccount_min_balance _ _ _ _, ?_⟩⟩
    · intro j hj
      exact alookup_aset_ne _ _ _ _ hj
    · intro j hj
      exact sumBal_aerase_ne _ _ _ fun hcc => hj hcc.symm
    · have h1 : sumBal s.accounts id =
          acct.balance + sumBal (aerase s.accounts (id, who)) id :=
        sumBal_decomp hk2 hacct
      show sumBal (aerase s.accounts (id, who)) id + actual =
        sumBal s.accounts id
      omega
  · refine ⟨fun _ _ => rfl, ?_, Or.inr ⟨d, d, hd, hd, rfl, rfl, rfl, ?_⟩⟩
    · intro j hj
      exact sumBal_aset_other _ _ _ _ fun hcc => hj hcc.symm
    · have h1 : sumBal (aset s.accounts (id, who)
          { acct with balance := acct.balance - actual }) id +
          acct.balance = sumBal s.accounts id + (acct.balance - actual) :=
        sumBal_aset_existing_add _ hk2 hacct
      show sumBal (aset s.accounts (id, who) _) id + actual =
        sumBal s.accounts id
      omega

theorem doTransfer_ok {cfg : Config} {id source dest amount : Nat}
    {mA : Option Nat} {ka be : Bool} {s : State} {actual : Nat} {s2 : State}
    (h : doTransfer cfg id source dest amount mA ka be false s =
      .ok (actual, s2)) :
    (amount = 0 ∧ actual = 0 ∧ s2 = s) ∨
    (amount ≠ 0 ∧ ∃ s1,
      decreaseBalance id source amount ka be mA.isSome s =
        .ok (actual, s1) ∧
      increaseBalance cfg id dest actual 0 s1 = .ok s2) := by
  unfold doTransfer at h
  split at h
  · simp only [Except.ok.injEq, Prod.mk.injEq] at h
    exact Or.inl ⟨by assumption, h.1.symm, h.2.symm⟩
  next hnz =>
    split at h
    · exact (Except.noConfusion h)
    · split at h
      · exact (Except.noConfusion h)
      · split at h
        · exact (Except.noConfusion h)
        next act1 s1 hdec =>
          split at h
          · exact (Except.noConfusion h)
          next s2' hinc =>
            simp only [Bool.false_eq_true, if_false, Except.ok.injEq,
              Prod.mk.injEq] at h
            obtain ⟨h1, h2⟩ := h
            subst h1
            subst h2
            simp only [Bool.false_eq_true, if_false] at hinc
            exact Or.inr ⟨hnz, s1, hdec, hinc⟩

theorem doTransfer_preserves {cfg : Config} {id source dest amount : Nat}
    {mA : Option Nat} {ka be : Bool} {s : State} {actual : Nat}
    {s2 : State}
    (h : doTransfer cfg id source dest amount mA ka be false s =
      .ok (actual, s2))
    (hstr : Struct s) : Struct s2 ∧ (Floor s → Floor s2) := by
  rcases doTransfer_ok h with ⟨_, _, rfl⟩ | ⟨_, s1, hdec, hinc⟩
  · exact ⟨hstr, fun hf => hf⟩
  · obtain ⟨hstr1, hf1⟩ := decrease_preserves hdec hstr
    obtain ⟨hstr2, hf2⟩ := increase_preserves hinc hstr1
    exact ⟨hstr2, fun hf => hf2 (hf1 hf)⟩

theorem doTransfer_conserved {cfg : Config} {id source dest amount : Nat}
    {mA : Option Nat} {ka be : Bool} {s : State} {actual : Nat}
    {s2 : State}
    (h : doTransfer cfg id source dest amount mA ka be false s =
      .ok (actual, s2))
    (hstr : Struct s) (hcons : ConservedLive s) : ConservedLive s2 := by
  rcases doTransfer_ok h with ⟨_, _, rfl⟩ | ⟨hnz, s1, hdec, hinc⟩
  · exact hcons
  · obtain ⟨hstr1, _⟩ := decrease_preserves hdec hstr
    obtain ⟨hstr2, _⟩ := increase_preserves hinc hstr1
    obtain ⟨hdlook, hdsum, hdc⟩ := decrease_deltas hdec hstr.1.2
    obtain ⟨hilook, hisum, hic⟩ := increase_deltas hinc hstr1.1.2
    refine ConservedLive_of_lookup hstr2.1.1 ?_
    intro j dj hj hlive
    by_cases hji : j = id
    · subst hji
      rcases hdc with ⟨hc0, _, _⟩ | ⟨d, d1, hd, hd1, hsup1, hst1, _, hsum1⟩
      · exact absurd hc0 hnz
      rcases hic with ⟨hc0, rfl⟩ | ⟨d1', d2, hd1', hd2, hsup2, hst2, _,
        hsum2⟩
      · rw [hd1, Option.some_inj] at hj
        subst hj
        rw [hst1] at hlive
        rw [hsup1, ConservedLive_lookup hcons j d hd hlive]
        omega
      · rw [hd1', Option.some_inj] at hd1
        subst hd1
        rw [hd2, Option.some_inj] at hj
        subst hj
        rw [hst2, hst1] at hlive
        rw [hsup2, hsup1, ConservedLive_lookup hcons j d hd hlive]
        omega
    · rw [hilook j hji, hdlook j hji] at hj
      rw [hisum j hji, hdsum j hji]
      exact ConservedLive_lookup hcons j dj hj hlive

/-! ## Per-operation preservation lemmas -/

theorem isSome_false_eq_none {α : Type} {a : Option α}
    (h : ¬ a.isSome = true) : a = none := by
  cases a
  · rfl
  · simp at h

theorem createFn_preserves {cfg : Config} {o : Origin}
    {id admin mb : Nat} {s s' : State}
    (h : createFn cfg o id admin mb s = .ok s') (hwf : WF s) :
    WF s' ∧ (Floor s → Floor s') := by
  unfold createFn at h
  split at h
  · exact (Except.noConfusion h)
  next owner =>
    split at h
    · exact (Except.noConfusion h)
    next hIn =>
      split at h
      · exact (Except.noConfusion h)
      · split at h
        · exact (Except.noConfusion h)
        next c' hres =>
          simp only [Except.ok.injEq] at h
          subst h
          have hdnone := isSome_false_eq_none hIn
          exact ⟨WF_new_asset hwf hdnone rfl rfl rfl rfl,
            fun hf => Floor_new_asset hf hwf.1.2.1 hdnone rfl rfl⟩

theorem forceCreateFn_preserves {o : Origin} {id owner : Nat} {suff : Bool}
    {mb : Nat} {s s' : State}
    (h : forceCreateFn o id owner suff mb s = .ok s') (hwf : WF s) :
    WF s' ∧ (Floor s → Floor s') := by
  unfold forceCreateFn at h
  split at h
  · exact (Except.noConfusion h)
  · split at h
    · exact (Except.noConfusion h)
    next hIn =>
      split at h
      · exact (Except.noConfusion h)
      · simp only [Except.ok.injEq] at h
        subst h
        have hdnone := isSome_false_eq_none hIn
        exact ⟨WF_new_asset hwf hdnone rfl rfl rfl rfl,
          fun hf => Floor_new_asset hf hwf.1.2.1 hdnone rfl rfl⟩

theorem startDestroyFn_preserves {o : Origin} {id : Nat} {s s' : State}
    (h : startDestroyFn o id s = .ok s') (hwf : WF s) :
    WF s' ∧ (Floor s → Floor s') := by
  unfold startDestroyFn at h
  split at h
  · exact (Except.noConfusion h)
  next d hd =>
    split at h
    · exact (Except.noConfusion h)
    · split at h
      · exact (Except.noConfusion h)
      · simp only [Except.ok.injEq] at h
        subst h
        refine ⟨WF_update_asset hwf hd rfl rfl ?_ rfl, fun hf =>
          Floor_update_asset hf hd rfl rfl rfl⟩
        intro hlive
        exact absurd hlive (by simp)

theorem finishDestroyFn_preserves {o : Origin} {id : Nat} {s s' : State}
    (h : finishDestroyFn o id s = .ok s') (hwf : WF s) :
    WF s' ∧ (Floor s → Floor s') := by
  unfold finishDestroyFn at h
  split at h
  · exact (Except.noConfusion h)
  next d hd =>
    split at h
    · exact (Except.noConfusion h)
    · split at h
      · exact (Except.noConfusion h)
      · split at h
        · exact (Except.noConfusion h)
        next hacc0 =>
          split at h
          · exact (Except.noConfusion h)
          · simp only [Except.ok.injEq] at h
            subst h
            obtain ⟨⟨⟨hk1, hk2⟩, hno, hc⟩, hcons⟩ := hwf
            have hcd : d.accounts = cntAcc s.accounts id :=
              hc (id, d) (alookup_mem hd)
            have hcnt0 : cntAcc s.accounts id = 0 := by
              simp only [not_not] at hacc0
              omega
            have hnone := no_entries_of_cnt_zero hcnt0
            constructor
            · refine ⟨⟨⟨keys_nodup_aerase _ _ hk1, hk2⟩, ?_, ?_⟩, ?_⟩
              · intro e he
                by_cases hid : e.1.1 = id
                · exact absurd hid (hnone e he)
                · show (alookup (aerase s.assets id) e.1.1).isSome
                  rw [alookup_aerase_ne _ _ _ hid]
                  exact hno e he
              · intro e he
                exact hc e (mem_aerase he)
              · intro e he hlive
                exact hcons e (mem_aerase he) hlive
            · intro hf e he hpos dd hdd
              by_cases hid : e.1.1 = id
              · exact absurd hid (hnone e he)
              · rw [alookup_aerase_ne _ _ _ hid] at hdd
                exact hf e he hpos dd hdd

theorem freezeAssetFn_preserves {o : Origin} {id : Nat} {s s' : State}
    (h : freezeAssetFn o id s = .ok s') (hwf : WF s) :
    WF s' ∧ (Floor s → Floor s') := by
  unfold freezeAssetFn at h
  split at h
  · exact (Except.noConfusion h)
  · split at h
    · exact (Except.noConfusion h)
    next d hd =>
      split at h
      · exact (Except.noConfusion h)
      · simp only [Except.ok.injEq] at h
        subst h
        exact ⟨WF_update_asset hwf hd rfl rfl (fun hl => ⟨rfl, hl⟩) rfl,
          fun hf => Floor_update_asset hf hd rfl rfl rfl⟩

theorem thawAssetFn_preserves {o : Origin} {id : Nat} {s s' : State}
    (h : thawAssetFn o id s = .ok s') (hwf : WF s) :
    WF s' ∧ (Floor s → Floor s') := by
  unfold thawAssetFn at h
  split at h
  · exact (Except.noConfusion h)
  · split at h
    · exact (Except.noConfusion h)
    next d hd =>
      split at h
      · exact (Except.noConfusion h)
      · simp only [Except.ok.injEq] at h
        subst h
        exact ⟨WF_update_asset hwf hd rfl rfl (fun hl => ⟨rfl, hl⟩) rfl,
          fun hf => Floor_update_asset hf hd rfl rfl rfl⟩

theorem setTeamFn_preserves {o : Origin} {id i a f : Nat} {s s' : State}
    (h : setTeamFn o id i a f s = .ok s') (hwf : WF s) :
    WF s' ∧ (Floor s → Floor s') := by
  unfold setTeamFn at h
  split at h
  · exact (Except.noConfusion h)
  · split at h
    · exact (Except.noConfusion h)
    next d hd =>
      split at h
      · exact (Except.noConfusion h)
      · simp only [Except.ok.injEq] at h
        subst h
        exact ⟨WF_update_asset hwf hd rfl rfl (fun hl => ⟨rfl, hl⟩) rfl,
          fun hf => Floor_update_asset hf hd rfl rfl rfl⟩

theorem transferOwnershipFn_preserves {o : Origin} {id w : Nat}
    {s s' : State}
    (h : transferOwnershipFn o id w s = .ok s') (hwf : WF s) :
    WF s' ∧ (Floor s → Floor s') := by
  unfold transferOwnershipFn at h
  split at h
  · exact (Except.noConfusion h)
  · split at h
    · exact (Except.noConfusion h)
    next d hd =>
      split at h
      · exact (Except.noConfusion h)
      · split at h
        · simp only [Except.ok.injEq] at h
          subst h
          exact ⟨hwf, fun hf => hf⟩
        · simp only [Except.ok.injEq] at h
          subst h
          exact ⟨WF_update_asset hwf hd rfl rfl (fun hl => ⟨rfl, hl⟩) rfl,
            fun hf => Floor_update_asset hf hd rfl rfl rfl⟩

theorem forceAssetStatusFn_preserves {o : Origin}
    {id ow i a f mb : Nat} {suff fz : Bool} {s s' : State}
    (h : forceAssetStatusFn o id ow i a f mb suff fz s = .ok s')
    (hwf : WF s) : WF s' := by
  unfold forceAssetStatusFn at h
  split at h
  · exact (Except.noConfusion h)
  · split at h
    · exact (Except.noConfusion h)
    next d hd =>
      simp only [Except.ok.injEq] at h
      subst h
      exact WF_update_asset hwf hd rfl rfl (fun hl => ⟨rfl, hl⟩) rfl

theorem setMetadataFn_preserves {cfg : Config} {o : Origin} {id : Nat}
    {name symbol : List Nat} {dec : Nat} {s s' : State}
    (h : setMetadataFn cfg o id name symbol dec s = .ok s') (hwf : WF s) :
    WF s' ∧ (Floor s → Floor s') := by
  unfold setMetadataFn at h
  split at h
  · exact (Except.noConfusion h)
  · split at h
    · exact (Except.noConfusion h)
    · split at h
      · exact (Except.noConfusion h)
      · split at h
        · exact (Except.noConfusion h)
        · split at h
          · exact (Except.noConfusion h)
          · split at h
            · exact (Except.noConfusion h)
            · dsimp only at h
              split at h
              · exact (Except.noConfusion h)
              · simp only [Except.ok.injEq] at h
                subst h
                exact ⟨WF_congr rfl rfl hwf,
                  fun hf => Floor_congr rfl rfl hf⟩

theorem clearMetadataFn_preserves {o : Origin} {id : Nat} {s s' : State}
    (h : clearMetadataFn o id s = .ok s') (hwf : WF s) :
    WF s' ∧ (Floor s → Floor s') := by
  unfold clearMetadataFn at h
  split at h
  · exact (Except.noConfusion h)
  · split at h
    · exact (Except.noConfusion h)
    · split at h
      · exact (Except.noConfusion h)
      · split at h
        · exact (Except.noConfusion h)
        · simp only [Except.ok.injEq] at h
          subst h
          exact ⟨WF_congr rfl rfl hwf, fun hf => Floor_congr rfl rfl hf⟩

theorem forceSetMetadataFn_preserves {cfg : Config} {o : Origin}
    {id : Nat} {name symbol : List Nat} {dec : Nat} {fz : Bool}
    {s s' : State}
    (h : forceSetMetadataFn cfg o id name symbol dec fz s = .ok s')
    (hwf : WF s) : WF s' ∧ (Floor s → Floor s') := by
  unfold forceSetMetadataFn at h
  split at h
  · exact (Except.noConfusion h)
  · split at h
    · exact (Except.noConfusion h)
    · split at h
      · exact (Except.noConfusion h)
      · split at h
        · exact (Except.noConfusion h)
        · simp only [Except.ok.injEq] at h
          subst h
          exact ⟨WF_congr rfl rfl hwf, fun hf => Floor_congr rfl rfl hf⟩

theorem forceClearMetadataFn_preserves {o : Origin} {id : Nat}
    {s s' : State}
    (h : forceClearMetadataFn o id s = .ok s') (hwf : WF s) :
    WF s' ∧ (Floor s → Floor s') := by
  unfold forceClearMetadataFn at h
  split at h
  · exact (Except.noConfusion h)
  · split at h
    · exact (Except.noConfusion h)
    · split at h
      · exact (Except.noConfusion h)
      · simp only [Except.ok.injEq] at h
        subst h
        exact ⟨WF_congr rfl rfl hwf, fun hf => Floor_congr rfl rfl hf⟩

theorem freezeFn_preserves {o : Origin} {id w : Nat} {s s' : State}
    (h : freezeFn o id w s = .ok s') (hwf : WF s) :
    WF s' ∧ (Floor s → Floor s') := by
  unfold freezeFn at h
  split at h
  · exact (Except.noConfusion h)
  · split at h
    · exact (Except.noConfusion h)
    · split at h
      · exact (Except.noConfusion h)
      · split at h
        · exact (Except.noConfusion h)
        next acct hacct =>
          simp only [Except.ok.injEq] at h
          subst h
          exact ⟨WF_update_account hwf hacct rfl rfl rfl,
            fun hf => Floor_update_account hf hwf.1.1 hacct rfl rfl rfl⟩

theorem thawFn_preserves {o : Origin} {id w : Nat} {s s' : State}
    (h : thawFn o id w s = .ok s') (hwf : WF s) :
    WF s' ∧ (Floor s → Floor s') := by
  unfold thawFn at h
  split at h
  · exact (Except.noConfusion h)
  · split at h
    · exact (Except.noConfusion h)
    · split at h
      · exact (Except.noConfusion h)
      · split at h
        · exact (Except.noConfusion h)
        next acct hacct =>
          simp only [Except.ok.injEq] at h
          subst h
          exact ⟨WF_update_account hwf hacct rfl rfl rfl,
            fun hf => Floor_update_account hf hwf.1.1 hacct rfl rfl rfl⟩

theorem approveTransferFn_preserves {cfg : Config} {o : Origin}
    {id del amt : Nat} {s s' : State}
    (h : approveTransferFn cfg o id del amt s = .ok s') (hwf : WF s) :
    WF s' ∧ (Floor s → Floor s') := by
  unfold approveTransferFn at h
  split at h
  · exact (Except.noConfusion h)
  · split at h
    · exact (Except.noConfusion h)
    next d hd =>
      split at h
      · split at h
        · exact (Except.noConfusion h)
        · simp only [Except.ok.injEq] at h
          subst h
          exact ⟨WF_update_asset hwf hd rfl rfl (fun hl => ⟨rfl, hl⟩) rfl,
            fun hf => Floor_update_asset hf hd rfl rfl rfl⟩
      · simp only [Except.ok.injEq] at h
        subst h
        exact ⟨WF_congr rfl rfl hwf, fun hf => Floor_congr rfl rfl hf⟩

theorem cancelApprovalFn_preserves {o : Origin} {id del : Nat}
    {s s' : State}
    (h : cancelApprovalFn o id del s = .ok s') (hwf : WF s) :
    WF s' ∧ (Floor s → Floor s') := by
  unfold cancelApprovalFn at h
  split at h
  · exact (Except.noConfusion h)
  · split at h
    · exact (Except.noConfusion h)
    next d hd =>
      split at h
      · exact (Except.noConfusion h)
      · simp only [Except.ok.injEq] at h
        subst h
        exact ⟨WF_update_asset hwf hd rfl rfl (fun hl => ⟨rfl, hl⟩) rfl,
          fun hf => Floor_update_asset hf hd rfl rfl rfl⟩

theorem forceCancelApprovalFn_preserves {o : Origin} {id ow del : Nat}
    {s s' : State}
    (h : forceCancelApprovalFn o id ow del s = .ok s') (hwf : WF s) :
    WF s' ∧ (Floor s → Floor s') := by
  unfold forceCancelApprovalFn at h
  split at h
  · exact (Except.noConfusion h)
  next d hd =>
    split at h
    · exact (Except.noConfusion h)
    · split at h
      · exact (Except.noConfusion h)
      · simp only [Except.ok.injEq] at h
        subst h
        exact ⟨WF_update_asset hwf hd rfl rfl (fun hl => ⟨rfl, hl⟩) rfl,
          fun hf => Floor_update_asset hf hd rfl rfl rfl⟩

theorem touchFn_preserves {cfg : Config} {o : Origin} {id : Nat}
    {s s' : State}
    (h : touchFn cfg o id s = .ok s') (hwf : WF s) :
    WF s' ∧ (Floor s → Floor s') := by
  unfold touchFn at h
  split at h
  · exact (Except.noConfusion h)
  next who =>
    split at h
    · exact (Except.noConfusion h)
    next hnoacct =>
      split at h
      · exact (Except.noConfusion h)
      next d hd =>
        split at h
        · exact (Except.noConfusion h)
        next c' hres =>
          simp only [Except.ok.injEq] at h
          subst h
          obtain ⟨⟨⟨hk1, hk2⟩, hno, hc⟩, hcons⟩ := hwf
          have hacct := isSome_false_eq_none hnoacct
          constructor
          · refine ⟨⟨⟨keys_nodup_aset _ _ _ hk1,
              keys_nodup_aset _ _ _ hk2⟩, ?_, ?_⟩, ?_⟩
            · intro e he
              rcases mem_aset' he with he | ⟨he, _⟩
              · rw [he]
                simp [alookup_aset_self]
              · by_cases hid : e.1.1 = id
                · rw [hid]
                  simp [alookup_aset_self]
                · show (alookup (aset s.assets id _) e.1.1).isSome
                  rw [alookup_aset_ne _ _ _ _ hid]
                  exact hno e he
            · intro e he
              rcases mem_aset' he with he | ⟨he, hne⟩
              · rw [he]
                show d.accounts + 1 = cntAcc (aset s.accounts (id, who) _) id
                rw [cntAcc_aset_new _ hacct]
                rw [hc (id, d) (alookup_mem hd)]
              · show _ = cntAcc (aset s.accounts (id, who) _) e.1
                rw [cntAcc_aset_other _ _ _ _ (fun hcc => hne hcc.symm)]
                exact hc e he
            · intro e he hlive
              rcases mem_aset' he with he | ⟨he, hne⟩
              · rw [he] at hlive ⊢
                show d.supply = sumBal (aset s.accounts (id, who) _) id
                have h1 : sumBal (aset s.accounts (id, who)
                    { balance := 0, is_frozen := false,
                      reason := .DepositHeld cfg.assetAccountDeposit }) id =
                    0 + sumBal s.accounts id :=
                  sumBal_aset_new _ hacct
                rw [h1, Nat.zero_add]
                exact hcons (id, d) (alookup_mem hd) hlive
              · show e.2.supply = sumBal (aset s.accounts (id, who) _) e.1
                rw [sumBal_aset_other _ _ _ _ (fun hcc => hne hcc.symm)]
                exact hcons e he hlive
          · intro hf e he hpos dd hdd
            rcases mem_aset' he with he | ⟨he, hne⟩
            · rw [he] at hpos
              simp at hpos
            · show dd.min_balance ≤ e.2.balance
              by_cases hid : e.1.1 = id
              · rw [hid, alookup_aset_self, Option.some_inj] at hdd
                have hmb : dd.min_balance = d.min_balance := by rw [← hdd]
                rw [hmb]
                exact hf e he hpos d (hid ▸ hd)
              · rw [alookup_aset_ne _ _ _ _ hid] at hdd
                exact hf e he hpos dd hdd

theorem refundFn_preserves {o : Origin} {id : Nat} {ab : Bool}
    {s s' : State}
    (h : refundFn o id ab s = .ok s') (hwf : WF s) :
    WF s' ∧ (Floor s → Floor s') := by
  unfold refundFn at h
  split at h
  · exact (Except.noConfusion h)
  next who =>
    split at h
    · exact (Except.noConfusion h)
    next acct hacct =>
      split at h
      next dep hdep =>
        split at h
        · exact (Except.noConfusion h)
        next d hd =>
          split at h
          · exact (Except.noConfusion h)
          · split at h
            · exact (Except.noConfusion h)
            · split at h
              · exact (Except.noConfusion h)
              · simp only [Except.ok.injEq] at h
                subst h
                obtain ⟨⟨⟨hk1, hk2⟩, hno, hc⟩, hcons⟩ := hwf
                constructor
                · refine ⟨⟨⟨keys_nodup_aset _ _ _ hk1,
                    keys_nodup_aerase _ _ hk2⟩, ?_, ?_⟩, ?_⟩
                  · intro e he
                    have he' := mem_aerase he
                    by_cases hid : e.1.1 = id
                    · rw [hid]
                      simp [alookup_aset_self]
                    · show (alookup (aset s.assets id _) e.1.1).isSome
                      rw [alookup_aset_ne _ _ _ _ hid]
                      exact hno e he'
                  · intro e he
                    rcases mem_aset' he with he | ⟨he, hne⟩
                    · rw [he]
                      show d.accounts - 1 =
                        cntAcc (aerase s.accounts (id, who)) id
                      have h1 : cntAcc s.accounts id =
                          1 + cntAcc (aerase s.accounts (id, who)) id :=
                        cntAcc_decomp hk2 hacct
                      have h2 : d.accounts = cntAcc s.accounts id :=
                        hc (id, d) (alookup_mem hd)
                      omega
                    · show _ = cntAcc (aerase s.accounts (id, who)) e.1
                      rw [cntAcc_aerase_ne _ _ _ (fun hcc => hne hcc.symm)]
                      exact hc e he
                  · intro e he hlive
                    rcases mem_aset' he with he | ⟨he, hne⟩
                    · rw [he] at hlive ⊢
                      show d.supply - acct.balance =
                        sumBal (aerase s.accounts (id, who)) id
                      have h1 : sumBal s.accounts id = acct.balance +
                          sumBal (aerase s.accounts (id, who)) id :=
                        sumBal_decomp hk2 hacct
                      have h2 : d.supply = sumBal s.accounts id :=
                        hcons (id, d) (alookup_mem hd) hlive
                      omega
                    · show e.2.supply =
                        sumBal (aerase s.accounts (id, who)) e.1
                      rw [sumBal_aerase_ne _ _ _ (fun hcc => hne hcc.symm)]
                      exact hcons e he hlive
                · intro hf e he hpos dd hdd
                  have he' := mem_aerase he
                  by_cases hid : e.1.1 = id
                  · rw [hid, alookup_aset_self, Option.some_inj] at hdd
                    have hmb : dd.min_balance = d.min_balance := by
                      rw [← hdd]
                    rw [hmb]
                    exact hf e he' hpos d (hid ▸ hd)
                  · rw [alookup_aset_ne _ _ _ _ hid] at hdd
                    exact hf e he' hpos dd hdd
      next => exact (Except.noConfusion h)

theorem mintFn_preserves {cfg : Config} {o : Origin} {id b amt : Nat}
    {s s' : State}
    (h : mintFn cfg o id b amt s = .ok s') (hwf : WF s) :
    WF s' ∧ (Floor s → Floor s') := by
  unfold mintFn at h
  split at h
  · exact (Except.noConfusion h)
  · split at h
    · exact (Except.noConfusion h)
    · split at h
      · exact (Except.noConfusion h)
      · obtain ⟨hstr, hcons⟩ := hwf
        obtain ⟨hstr', hf'⟩ := increase_preserves h hstr
        refine ⟨⟨hstr', ?_⟩, hf'⟩
        obtain ⟨hlook, hsum, hcase⟩ := increase_deltas h hstr.1.2
        refine ConservedLive_of_lookup hstr'.1.1 ?_
        intro j dj hj hlive
        by_cases hji : j = id
        · subst hji
          rcases hcase with ⟨_, rfl⟩ |
            ⟨d, d', hd, hd', hsup, hst, _, hsumid⟩
          · exact ConservedLive_lookup hcons j dj hj hlive
          · rw [hd', Option.some_inj] at hj
            subst hj
            rw [hst] at hlive
            rw [hsup, hsumid, ConservedLive_lookup hcons j d hd hlive]
        · rw [hlook j hji] at hj
          rw [hsum j hji]
          exact ConservedLive_lookup hcons j dj hj hlive

theorem burnFn_preserves {o : Origin} {id w amt : Nat} {s s' : State}
    (h : burnFn o id w amt s = .ok s') (hwf : WF s) :
    WF s' ∧ (Floor s → Floor s') := by
  unfold burnFn at h
  split at h
  · exact (Except.noConfusion h)
  · split at h
    · exact (Except.noConfusion h)
    next d hd =>
      split at h
      · exact (Except.noConfusion h)
      · split at h
        · exact (Except.noConfusion h)
        next act1 s1 hdec =>
          split at h
          · exact (Except.noConfusion h)
          next d1 hd1 =>
            simp only [Except.ok.injEq] at h
            subst h
            obtain ⟨hstr, hcons⟩ := hwf
            obtain ⟨hstr1, hf1⟩ := decrease_preserves hdec hstr
            obtain ⟨hlook, hsum, hcase⟩ := decrease_deltas hdec hstr.1.2
            constructor
            · refine ⟨Struct_update_asset hstr1 hd1 rfl rfl rfl, ?_⟩
              refine ConservedLive_of_lookup
                (keys_nodup_aset _ _ _ hstr1.1.1) ?_
              intro j dj hj hlive
              dsimp only at hj ⊢
              by_cases hji : j = id
              · subst hji
                rw [alookup_aset_self, Option.some_inj] at hj
                subst hj
                have hlive1 : d1.status = AssetStatus.Live := hlive
                show d1.supply - act1 = sumBal s1.accounts j
                rcases hcase with ⟨_, ha0, rfl⟩ |
                  ⟨d0, d0', hd0, hd0', hsup, hst, _, hsumid⟩
                · subst ha0
                  rw [hd, Option.some_inj] at hd1
                  subst hd1
                  rw [Nat.sub_zero]
                  exact ConservedLive_lookup hcons j d hd hlive1
                · rw [hd0', Option.some_inj] at hd1
                  subst hd1
                  have hds : d0.status = AssetStatus.Live := by
                    rw [← hst]; exact hlive1
                  have h3 : d0.supply = sumBal s.accounts j :=
                    ConservedLive_lookup hcons j d0 hd0 hds
                  omega
              · rw [alookup_aset_ne _ _ _ _ hji, hlook j hji] at hj
                rw [hsum j hji]
                exact ConservedLive_lookup hcons j dj hj hlive
            · intro hf
              exact Floor_update_asset (hf1 hf) hd1 rfl rfl rfl

theorem transferFn_preserves {cfg : Config} {o : Origin}
    {id t amt : Nat} {s s' : State}
    (h : transferFn cfg o id t amt s = .ok s') (hwf : WF s) :
    WF s' ∧ (Floor s → Floor s') := by
  unfold transferFn at h
  split at h
  · exact (Except.noConfusion h)
  · split at h
    · exact (Except.noConfusion h)
    next act1 s1 htr =>
      simp only [Except.ok.injEq] at h
      subst h
      obtain ⟨hstr, hcons⟩ := hwf
      obtain ⟨hstr1, hf1⟩ := doTransfer_preserves htr hstr
      exact ⟨⟨hstr1, doTransfer_conserved htr hstr hcons⟩, hf1⟩

theorem transferKeepAliveFn_preserves {cfg : Config} {o : Origin}
    {id t amt : Nat} {s s' : State}
    (h : transferKeepAliveFn cfg o id t amt s = .ok s') (hwf : WF s) :
    WF s' ∧ (Floor s → Floor s') := by
  unfold transferKeepAliveFn at h
  split at h
  · exact (Except.noConfusion h)
  · split at h
    · exact (Except.noConfusion h)
    next act1 s1 htr =>
      simp only [Except.ok.injEq] at h
      subst h
      obtain ⟨hstr, hcons⟩ := hwf
      obtain ⟨hstr1, hf1⟩ := doTransfer_preserves htr hstr
      exact ⟨⟨hstr1, doTransfer_conserved htr hstr hcons⟩, hf1⟩

theorem forceTransferFn_preserves {cfg : Config} {o : Origin}
    {id src dst amt : Nat} {s s' : State}
    (h : forceTransferFn cfg o id src dst amt s = .ok s') (hwf : WF s) :
    WF s' ∧ (Floor s → Floor s') := by
  unfold forceTransferFn at h
  split at h
  · exact (Except.noConfusion h)
  · split at h
    · exact (Except.noConfusion h)
    next act1 s1 htr =>
      simp only [Except.ok.injEq] at h
      subst h
      obtain ⟨hstr, hcons⟩ := hwf
      obtain ⟨hstr1, hf1⟩ := doTransfer_preserves htr hstr
      exact ⟨⟨hstr1, doTransfer_conserved htr hstr hcons⟩, hf1⟩

theorem transferApprovedFn_preserves {cfg : Config} {o : Origin}
    {id ow dst amt : Nat} {s s' : State}
    (h : transferApprovedFn cfg o id ow dst amt s = .ok s') (hwf : WF s) :
    WF s' ∧ (Floor s → Floor s') := by
  unfold transferApprovedFn at h
  split at h
  · exact (Except.noConfusion h)
  · split at h
    · exact (Except.noConfusion h)
    · split at h
      · exact (Except.noConfusion h)
      next a happr =>
        split at h
        · exact (Except.noConfusion h)
        · split at h
          · exact (Except.noConfusion h)
          next act1 s1 htr =>
            obtain ⟨hstr, hcons⟩ := hwf
            obtain ⟨hstr1, hf1⟩ := doTransfer_preserves htr hstr
            have hcons1 := doTransfer_conserved htr hstr hcons
            split at h
            · split at h
              · exact (Except.noConfusion h)
              next d1 hd1 =>
                simp only [Except.ok.injEq] at h
                subst h
                exact ⟨WF_update_asset ⟨hstr1, hcons1⟩ hd1 rfl rfl
                  (fun hl => ⟨rfl, hl⟩) rfl,
                  fun hf => Floor_update_asset (hf1 hf) hd1 rfl rfl rfl⟩
            · simp only [Except.ok.injEq] at h
              subst h
              exact ⟨WF_congr rfl rfl ⟨hstr1, hcons1⟩,
                fun hf => Floor_congr rfl rfl (hf1 hf)⟩

theorem destroyAccountsFn_preserves {cfg : Config} {o : Origin} {id : Nat}
    {s s' : State}
    (h : destroyAccountsFn cfg o id s = .ok s') (hwf : WF s) :
    WF s' ∧ (Floor s → Floor s') := by
  unfold destroyAccountsFn at h
  split at h
  · exact (Except.noConfusion h)
  next d hd =>
    split at h
    · exact (Except.noConfusion h)
    · split at h
      · exact (Except.noConfusion h)
      · split at h
        · exact (Except.noConfusion h)
        next hstD =>
          dsimp only at h
          simp only [Except.ok.injEq] at h
          subst h
          obtain ⟨⟨⟨hk1, hk2⟩, hno, hc⟩, hcons⟩ := hwf
          simp only [not_not] at hstD
          have hidE : ∀ e ∈ s.accounts.filter
              (fun e => decide (e.1.1 = id)), e.1.1 = id := by
            intro e he
            have := (List.mem_filter.mp he).2
            exact of_decide_eq_true this
          have hidEmem : ∀ e ∈ s.accounts.filter
              (fun e => decide (e.1.1 = id)), e ∈ s.accounts :=
            fun e he => (List.mem_filter.mp he).1
          have hrest : ∀ e ∈ (drainSplit cfg.removeKeysLimit
              (s.accounts.filter (fun e => decide (e.1.1 = id)))).2,
              e.1.1 = id ∧ e ∈ s.accounts :=
            fun e he => ⟨hidE e (mem_drainSplit_right he),
              hidEmem e (mem_drainSplit_right he)⟩
          have hoth : ∀ e ∈ s.accounts.filter
              (fun e => decide (¬ e.1.1 = id)),
              ¬ e.1.1 = id ∧ e ∈ s.accounts := by
            intro e he
            have h2 := (List.mem_filter.mp he).2
            exact ⟨of_decide_eq_true h2, (List.mem_filter.mp he).1⟩
          have hlen : (s.accounts.filter
              (fun e => decide (e.1.1 = id))).length =
              (drainSplit cfg.removeKeysLimit (s.accounts.filter
                (fun e => decide (e.1.1 = id)))).1.length +
              (drainSplit cfg.removeKeysLimit (s.accounts.filter
                (fun e => decide (e.1.1 = id)))).2.length := by
            conv =>
              left
              rw [← drainSplit_append cfg.removeKeysLimit
                (s.accounts.filter (fun e => decide (e.1.1 = id)))]
            rw [List.length_append]
          have hfold := foldl_dead_fields
            (drainSplit cfg.removeKeysLimit (s.accounts.filter
              (fun e => decide (e.1.1 = id)))).1 d s.currency
          have hrestsub : (drainSplit cfg.removeKeysLimit
              (s.accounts.filter (fun e => decide (e.1.1 = id)))).2.Sublist
              s.accounts := by
            have h1 : (drainSplit cfg.removeKeysLimit
                (s.accounts.filter (fun e =>
                  decide (e.1.1 = id)))).2.Sublist
                (s.accounts.filter (fun e => decide (e.1.1 = id))) := by
              conv =>
                rhs
                rw [← drainSplit_append cfg.removeKeysLimit
                  (s.accounts.filter (fun e => decide (e.1.1 = id)))]
              exact List.sublist_append_right _ _
            exact h1.trans (List.filter_sublist s.accounts)
          have hothsub : (s.accounts.filter
              (fun e => decide (¬ e.1.1 = id))).Sublist s.accounts :=
            List.filter_sublist s.accounts
          constructor
          · refine ⟨⟨⟨keys_nodup_aset _ _ _ hk1, ?_⟩, ?_, ?_⟩, ?_⟩
            · rw [List.map_append, List.nodup_append]
              refine ⟨(hothsub.map Prod.fst).nodup hk2,
                (hrestsub.map Prod.fst).nodup hk2, ?_⟩
              intro k hk1' hk2'
              rcases List.mem_map.mp hk1' with ⟨e1, he1, hke1⟩
              rcases List.mem_map.mp hk2' with ⟨e2, he2, hke2⟩
              have h1 := (hoth e1 he1).1
              have h2 := (hrest e2 he2).1
              rw [← hke1] at hke2
              apply h1
              rw [← hke2]
              exact h2
            · intro e he
              rcases List.mem_append.mp he with he | he
              · obtain ⟨hne, hmem⟩ := hoth e he
                show (alookup (aset s.assets id _) e.1.1).isSome
                rw [alookup_aset_ne _ _ _ _ hne]
                exact hno e hmem
              · obtain ⟨heq, hmem⟩ := hrest e he
                rw [heq]
                simp [alookup_aset_self]
            · intro e he
              rcases mem_aset' he with he | ⟨he, hne⟩
              · rw [he]
                show _ = cntAcc (_ ++ _) id
                rw [cntAcc_append]
                have hz : cntAcc (s.accounts.filter
                    (fun e => decide (¬ e.1.1 = id))) id =
                    0 := cntAcc_eq_zero _ _ (fun e he => (hoth e he).1)
                have hl : cntAcc (drainSplit cfg.removeKeysLimit
                    (s.accounts.filter (fun e => decide (e.1.1 = id)))).2
                    id = (drainSplit cfg.removeKeysLimit
                    (s.accounts.filter (fun e =>
                      decide (e.1.1 = id)))).2.length :=
                  cntAcc_eq_length _ _ (fun e he => (hrest e he).1)
                rw [hz, hl, hfold.2.2.2.2]
                have hcd : d.accounts = cntAcc s.accounts id :=
                  hc (id, d) (alookup_mem hd)
                have hcnt_def : cntAcc s.accounts id =
                    (s.accounts.filter
                      (fun e => decide (e.1.1 = id))).length := rfl
                omega
              · show _ = cntAcc (_ ++ _) e.1
                rw [cntAcc_append]
                have hz : cntAcc (drainSplit cfg.removeKeysLimit
                    (s.accounts.filter (fun e => decide (e.1.1 = id)))).2
                    e.1 = 0 :=
                  cntAcc_eq_zero _ _ (fun x hx => by
                    rw [(hrest x hx).1]
                    exact fun hcc => hne hcc.symm)
                rw [hz, cntAcc_filter_out _ _ _
                  (fun hcc => hne hcc.symm), Nat.add_zero]
                exact hc e he
            · intro e he hlive
              rcases mem_aset' he with he | ⟨he, hne⟩
              · rw [he] at hlive
                have : AssetStatus.Destroying = AssetStatus.Live := by
                  rw [← hstD, ← hfold.2.1]
                  exact hlive
                exact absurd this (by simp)
              · show e.2.supply = sumBal (_ ++ _) e.1
                rw [sumBal_append]
                have hz : sumBal (drainSplit cfg.removeKeysLimit
                    (s.accounts.filter (fun e => decide (e.1.1 = id)))).2
                    e.1 = 0 :=
                  sumBal_eq_zero _ _ (fun x hx => by
                    rw [(hrest x hx).1]
                    exact fun hcc => hne hcc.symm)
                rw [hz, sumBal_filter_out _ _ _
                  (fun hcc => hne hcc.symm), Nat.add_zero]
                exact hcons e he hlive
          · intro hf e he hpos dd hdd
            rcases List.mem_append.mp he with he | he
            · obtain ⟨hne, hmem⟩ := hoth e he
              rw [alookup_aset_ne _ _ _ _ hne] at hdd
              exact hf e hmem hpos dd hdd
            · obtain ⟨heq, hmem⟩ := hrest e he
              rw [heq, alookup_aset_self, Option.some_inj] at hdd
              have hmb : dd.min_balance = d.min_balance := by
                rw [← hdd, hfold.2.2.1]
              rw [hmb]
              exact hf e hmem hpos d (heq ▸ hd)

theorem destroyApprovalsFn_preserves {cfg : Config} {o : Origin}
    {id : Nat} {s s' : State}
    (h : destroyApprovalsFn cfg o id s = .ok s') (hwf : WF s) :
    WF s' ∧ (Floor s → Floor s') := by
  unfold destroyApprovalsFn at h
  split at h
  · exact (Except.noConfusion h)
  next d hd =>
    split at h
    · exact (Except.noConfusion h)
    · split at h
      · exact (Except.noConfusion h)
      · split at h
        · exact (Except.noConfusion h)
        · dsimp only at h
          simp only [Except.ok.injEq] at h
          subst h
          have hfold := foldl_appr_fields
            (drainSplit cfg.removeKeysLimit (s.approvals.filter
              (fun e => decide (e.1.1 = id)))).1 d s.currency
          rw [hfold]
          exact ⟨WF_update_asset hwf hd rfl rfl (fun hl => ⟨rfl, hl⟩) rfl,
            fun hf => Floor_update_asset hf hd rfl rfl rfl⟩

/-! ## The master preservation theorem -/

theorem runOp_preserves {cfg : Config} {op : Op} {s s' : State}
    (h : runOp cfg op s = .ok s') (hwf : WF s) :
    WF s' ∧ (Floor s → ¬ op.isForceAssetStatus → Floor s') := by
  cases op with
  | create o id admin mb =>
    obtain ⟨h1, h2⟩ := createFn_preserves h hwf
    exact ⟨h1, fun hf _ => h2 hf⟩
  | forceCreate o id owner suff mb =>
    obtain ⟨h1, h2⟩ := forceCreateFn_preserves h hwf
    exact ⟨h1, fun hf _ => h2 hf⟩
  | startDestroy o id =>
    obtain ⟨h1, h2⟩ := startDestroyFn_preserves h hwf
    exact ⟨h1, fun hf _ => h2 hf⟩
  | destroyAccounts o id =>
    obtain ⟨h1, h2⟩ := destroyAccountsFn_preserves h hwf
    exact ⟨h1, fun hf _ => h2 hf⟩
  | destroyApprovals o id =>
    obtain ⟨h1, h2⟩ := destroyApprovalsFn_preserves h hwf
    exact ⟨h1, fun hf _ => h2 hf⟩
  | finishDestroy o id =>
    obtain ⟨h1, h2⟩ := finishDestroyFn_preserves h hwf
    exact ⟨h1, fun hf _ => h2 hf⟩
  | mint o id b amt =>
    obtain ⟨h1, h2⟩ := mintFn_preserves h hwf
    exact ⟨h1, fun hf _ => h2 hf⟩
  | burn o id w amt =>
    obtain ⟨h1, h2⟩ := burnFn_preserves h hwf
    exact ⟨h1, fun hf _ => h2 hf⟩
  | transfer o id t amt =>
    obtain ⟨h1, h2⟩ := transferFn_preserves h hwf
    exact ⟨h1, fun hf _ => h2 hf⟩
  | transferKeepAlive o id t amt =>
    obtain ⟨h1, h2⟩ := transferKeepAliveFn_preserves h hwf
    exact ⟨h1, fun hf _ => h2 hf⟩
  | forceTransfer o id src dst amt =>
    obtain ⟨h1, h2⟩ := forceTransferFn_preserves h hwf
    exact ⟨h1, fun hf _ => h2 hf⟩
  | freeze o id w =>
    obtain ⟨h1, h2⟩ := freezeFn_preserves h hwf
    exact ⟨h1, fun hf _ => h2 hf⟩
  | thaw o id w =>
    obtain ⟨h1, h2⟩ := thawFn_preserves h hwf
    exact ⟨h1, fun hf _ => h2 hf⟩
  | freezeAsset o id =>
    obtain ⟨h1, h2⟩ := freezeAssetFn_preserves h hwf
    exact ⟨h1, fun hf _ => h2 hf⟩
  | thawAsset o id =>
    obtain ⟨h1, h2⟩ := thawAssetFn_preserves h hwf
    exact ⟨h1, fun hf _ => h2 hf⟩
  | transferOwnership o id w =>
    obtain ⟨h1, h2⟩ := transferOwnershipFn_preserves h hwf
    exact ⟨h1, fun hf _ => h2 hf⟩
  | setTeam o id i a f =>
    obtain ⟨h1, h2⟩ := setTeamFn_preserves h hwf
    exact ⟨h1, fun hf _ => h2 hf⟩
  | setMetadata o id n sy dec =>
    obtain ⟨h1, h2⟩ := setMetadataFn_preserves h hwf
    exact ⟨h1, fun hf _ => h2 hf⟩
  | clearMetadata o id =>
    obtain ⟨h1, h2⟩ := clearMetadataFn_preserves h hwf
    exact ⟨h1, fun hf _ => h2 hf⟩
  | forceSetMetadata o id n sy dec fz =>
    obtain ⟨h1, h2⟩ := forceSetMetadataFn_preserves h hwf
    exact ⟨h1, fun hf _ => h2 hf⟩
  | forceClearMetadata o id =>
    obtain ⟨h1, h2⟩ := forceClearMetadataFn_preserves h hwf
    exact ⟨h1, fun hf _ => h2 hf⟩
  | forceAssetStatus o id ow i a f mb suff fz =>
    exact ⟨forceAssetStatusFn_preserves h hwf,
      fun _ hno => absurd trivial hno⟩
  | approveTransfer o id del amt =>
    obtain ⟨h1, h2⟩ := approveTransferFn_preserves h hwf
    exact ⟨h1, fun hf _ => h2 hf⟩
  | cancelApproval o id del =>
    obtain ⟨h1, h2⟩ := cancelApprovalFn_preserves h hwf
    exact ⟨h1, fun hf _ => h2 hf⟩
  | forceCancelApproval o id ow del =>
    obtain ⟨h1, h2⟩ := forceCancelApprovalFn_preserves h hwf
    exact ⟨h1, fun hf _ => h2 hf⟩
  | transferApproved o id ow dst amt =>
    obtain ⟨h1, h2⟩ := transferApprovedFn_preserves h hwf
    exact ⟨h1, fun hf _ => h2 hf⟩
  | touch o id =>
    obtain ⟨h1, h2⟩ := touchFn_preserves h hwf
    exact ⟨h1, fun hf _ => h2 hf⟩
  | refund o id ab =>
    obtain ⟨h1, h2⟩ := refundFn_preserves h hwf
    exact ⟨h1, fun hf _ => h2 hf⟩

theorem applyOp_ok {cfg : Config} {op : Op} {s s' : State}
    (h : applyOp cfg op s = (s', none)) : runOp cfg op s = .ok s' := by
  unfold applyOp at h
  split at h
  · simp only [Prod.mk.injEq] at h
    rw [← h.1]
    assumption
  · simp only [Prod.mk.injEq] at h
    exact absurd h.2 (by simp)

theorem WF_init (c0 : Currency) : WF (initState c0) := by
  refine ⟨⟨⟨List.nodup_nil, List.nodup_nil⟩, ?_, ?_⟩, ?_⟩ <;>
    intro e he <;> exact absurd he (List.not_mem_nil e)

theorem Floor_init (c0 : Currency) : Floor (initState c0) := by
  intro e he
  exact absurd he (List.not_mem_nil e)

/-- Every state reachable from the empty ledger satisfies the structural
invariants and Live-asset conservation. -/
theorem reachable_WF {cfg : Config} {c0 : Currency} {s : State}
    (h : Reachable cfg c0 s) : WF s := by
  induction h with
  | init => exact WF_init c0
  | step op hr hap ih => exact (runOp_preserves (applyOp_ok hap) ih).1

/-- Every state reachable without `force_asset_status` also satisfies the
all-or-nothing floor. -/
theorem reachableNoFAS_WF_Floor {cfg : Config} {c0 : Currency} {s : State}
    (h : ReachableNoFAS cfg c0 s) : WF s ∧ Floor s := by
  induction h with
  | init => exact ⟨WF_init c0, Floor_init c0⟩
  | step op hr hno hap ih =>
    obtain ⟨hwf, hfl⟩ := ih
    obtain ⟨h1, h2⟩ := runOp_preserves (applyOp_ok hap) hwf
    exact ⟨h1, h2 hfl hno⟩

/-! ## Concrete fixtures for witnesses and counterexamples -/

/-- A small concrete runtime configuration. -/
def cfg0 : Config :=
  { removeKeysLimit := 5, assetDeposit := 10, assetAccountDeposit := 7,
    metadataDepositBase := 3, metadataDepositPerByte := 1,
    approvalDeposit := 4, stringLimit := 8, maxBalance := 1000000,
    providers := [1, 2, 3, 4, 5] }

/-- A small concrete external currency state. -/
def cur0 : Currency :=
  { free := [(1, 1000), (2, 1000), (3, 1000)], reserved := [] }

/-! ## Claim C4 -/

theorem permFail_false {o : Origin} {owner : Nat}
    (ho : o = .root ∨ o = .signed owner) :
    permFail (maybeCheckOwner o) owner = false := by
  rcases ho with rfl | rfl
  · rfl
  · simp [permFail, maybeCheckOwner]

theorem applyOp_of_runOp_error {cfg : Config} {op : Op} {s : State}
    {e : DispatchError} (h : runOp cfg op s = .error e) :
    applyOp cfg op s = (s, some e) := by
  unfold applyOp
  rw [h]

theorem applyOp_of_runOp_ok {cfg : Config} {op : Op} {s s' : State}
    (h : runOp cfg op s = .ok s') : applyOp cfg op s = (s', none) := by
  unfold applyOp
  rw [h]

/-- C4: for a registered asset and an owner or force-origin caller,
`start_destroy` fails with `BadWitness` exactly when the asset is not
frozen; on a frozen asset it succeeds, sets the status to `Destroying`
and touches no account record. -/
theorem c4_start_destroy (cfg : Config) {s : State} {id : Nat}
    {d : AssetDetails} {o : Origin}
    (hd : alookup s.assets id = some d)
    (ho : o = .root ∨ o = .signed d.owner) :
    (d.is_frozen = false →
      applyOp cfg (.startDestroy o id) s = (s, some .BadWitness)) ∧
    (d.is_frozen = true → ∃ s',
      applyOp cfg (.startDestroy o id) s = (s', none) ∧
      alookup s'.assets id = some { d with status := .Destroying } ∧
      s'.accounts = s.accounts) := by
  have hperm := permFail_false ho
  constructor
  · intro hfz
    refine applyOp_of_runOp_error ?_
    show startDestroyFn o id s = .error .BadWitness
    unfold startDestroyFn
    rw [hd]
    dsimp only
    rw [hperm, hfz]
    rfl
  · intro hfz
    refine ⟨{ s with
        assets := aset s.assets id { d with status := .Destroying } },
      applyOp_of_runOp_ok ?_, alookup_aset_self _ _ _, rfl⟩
    show startDestroyFn o id s = .ok _
    unfold startDestroyFn
    rw [hd]
    dsimp only
    rw [hperm, hfz]
    rfl

/-- The registry record of the C4 witness asset: frozen, Live, empty. -/
def c4d : AssetDetails :=
  { owner := 1, issuer := 1, admin := 1, freezer := 1, supply := 0,
    deposit := 0, min_balance := 1, is_sufficient := true, accounts := 0,
    sufficients := 0, approvals := 0, is_frozen := true, status := .Live }

/-- A ledger holding just the C4 witness asset. -/
def c4s : State :=
  { assets := [(1, c4d)], accounts := [], approvals := [], metadata := [],
    currency := cur0 }

/-- Witness for C4 at a concrete frozen asset and its owner. -/
theorem c4_start_destroy_witness :
    (c4d.is_frozen = false →
      applyOp cfg0 (.startDestroy (.signed 1) 1) c4s =
        (c4s, some .BadWitness)) ∧
    (c4d.is_frozen = true → ∃ s',
      applyOp cfg0 (.startDestroy (.signed 1) 1) c4s = (s', none) ∧
      alookup s'.assets 1 = some { c4d with status := .Destroying } ∧
      s'.accounts = c4s.accounts) :=
  c4_start_destroy cfg0 (by decide) (Or.inr rfl)

/-! ## Claim C3 -/

/-- C3 (corrected claim): as stated, the claim is false — for a
registered but unfrozen asset with a nonzero `accounts` counter,
`finish_destroy` fails with `Unknown`, not `InUse` (the `is_frozen` guard
at line 778 fires before the counter guards). -/
theorem c3_counterexample :
    applyOp cfg0 (.finishDestroy .root 1)
      { assets := [(1, { c4d with is_frozen := false, accounts := 1 })],
        accounts :=
          [((1, 2), { balance := 1, is_frozen := false, reason := .Sufficient })],
        approvals := [], metadata := [], currency := cur0 } =
      ({ assets := [(1, { c4d with is_frozen := false, accounts := 1 })],
         accounts :=
           [((1, 2), { balance := 1, is_frozen := false, reason := .Sufficient })],
         approvals := [], metadata := [], currency := cur0 },
        some .Unknown) ∧
    some DispatchError.Unknown ≠ some DispatchError.InUse := by
  constructor
  · rfl
  · decide

/-- C3 (amended): for a *frozen* registered asset called by its owner or
the force origin, `finish_destroy` fails with `InUse` whenever the
`accounts` or `approvals` counter is nonzero; with both counters zero it
succeeds, unreserves the creation deposit plus any metadata deposit to the
owner, and deletes the registry and metadata records. -/
theorem c3_finish_destroy (cfg : Config) {s : State} {id : Nat}
    {d : AssetDetails} {o : Origin}
    (hd : alookup s.assets id = some d) (hfz : d.is_frozen = true)
    (ho : o = .root ∨ o = .signed d.owner) :
    ((d.accounts ≠ 0 ∨ d.approvals ≠ 0) →
      applyOp cfg (.finishDestroy o id) s = (s, some .InUse)) ∧
    (d.accounts = 0 → d.approvals = 0 →
      applyOp cfg (.finishDestroy o id) s =
        ({ s with
            assets := aerase s.assets id,
            metadata := aerase s.metadata id,
            currency := s.currency.unreserve d.owner (d.deposit +
              ((alookup s.metadata id).map AssetMetadata.deposit).getD 0) },
          none)) := by
  have hperm := permFail_false ho
  constructor
  · intro hcnt
    refine applyOp_of_runOp_error ?_
    show finishDestroyFn o id s = .error .InUse
    unfold finishDestroyFn
    rw [hd]
    dsimp only
    rw [hperm, hfz]
    show (if d.accounts ≠ 0 then Except.error DispatchError.InUse
      else if d.approvals ≠ 0 then Except.error DispatchError.InUse
      else _) = _
    rcases hcnt with hcnt | hcnt
    · rw [if_pos hcnt]
    · by_cases hacc : d.accounts ≠ 0
      · rw [if_pos hacc]
      · rw [if_neg hacc, if_pos hcnt]
  · intro hacc happ
    refine applyOp_of_runOp_ok ?_
    show finishDestroyFn o id s = .ok _
    unfold finishDestroyFn
    rw [hd]
    dsimp only
    rw [hperm, hfz]
    show (if d.accounts ≠ 0 then Except.error DispatchError.InUse
      else if d.approvals ≠ 0 then Except.error DispatchError.InUse
      else _) = _
    rw [if_neg (by omega), if_neg (by omega)]

/-- Witness for the amended C3 at a concrete frozen empty asset. -/
theorem c3_finish_destroy_witness :
    ((c4d.accounts ≠ 0 ∨ c4d.approvals ≠ 0) →
      applyOp cfg0 (.finishDestroy (.signed 1) 1) c4s =
        (c4s, some .InUse)) ∧
    (c4d.accounts = 0 → c4d.approvals = 0 →
      applyOp cfg0 (.finishDestroy (.signed 1) 1) c4s =
        ({ c4s with
            assets := aerase c4s.assets 1,
            metadata := aerase c4s.metadata 1,
            currency := c4s.currency.unreserve c4d.owner (c4d.deposit +
              ((alookup c4s.metadata 1).map AssetMetadata.deposit).getD 0) },
          none)) :=
  c3_finish_destroy cfg0 (by decide) (by decide) (Or.inr rfl)

/-! ## Claim C9 -/

/-- C9: `finish_destroy` never inspects the status field — on any
registered asset with `is_frozen = true` and both counters zero, called by
the owner or the force origin, it succeeds and deletes the registry
record, for an arbitrary (in particular still `Live`) status. -/
theorem c9_finish_destroy_ignores_status (cfg : Config) {s : State}
    {id : Nat} {d : AssetDetails} {o : Origin}
    (hd : alookup s.assets id = some d) (hfz : d.is_frozen = true)
    (hacc : d.accounts = 0) (happ : d.approvals = 0)
    (ho : o = .root ∨ o = .signed d.owner) :
    applyOp cfg (.finishDestroy o id) s =
      ({ s with
          assets := aerase s.assets id,
          metadata := aerase s.metadata id,
          currency := s.currency.unreserve d.owner (d.deposit +
            ((alookup s.metadata id).map AssetMetadata.deposit).getD 0) },
        none) ∧
    alookup ((applyOp cfg (.finishDestroy o id) s).1).assets id = none := by
  obtain ⟨_, hsucc⟩ := c3_finish_destroy cfg hd hfz ho
  have h1 := hsucc hacc happ
  refine ⟨h1, ?_⟩
  rw [h1]
  exact alookup_aerase_self _ _

/-- Witness for C9 at a concrete frozen, empty, still-`Live` asset. -/
theorem c9_finish_destroy_ignores_status_witness :
    applyOp cfg0 (.finishDestroy .root 1) c4s =
      ({ c4s with
          metadata := aerase c4s.metadata 1,
          assets := aerase c4s.assets 1,
          currency := c4s.currency.unreserve c4d.owner (c4d.deposit +
            ((alookup c4s.metadata 1).map AssetMetadata.deposit).getD 0) },
        none) ∧
    alookup ((applyOp cfg0 (.finishDestroy .root 1) c4s).1).assets 1 =
      none :=
  c9_finish_destroy_ignores_status cfg0 (by decide) (by decide) (by decide)
    (by decide) (Or.inl rfl)

/-! ## Claim C10 -/

/-- C10: with a registered asset and no approval record for
`(id, owner, delegate)`, both `cancel_approval` (by the owner) and
`force_cancel_approval` (by the force origin or the asset admin) fail with
`Unknown` — not `Unapproved` — leaving the whole state unchanged. -/
theorem c10_cancel_missing_approval (cfg : Config) {s : State}
    {id owner delegate : Nat} {d : AssetDetails} {o : Origin}
    (hd : alookup s.assets id = some d)
    (happr : alookup s.approvals (id, owner, delegate) = none) :
    (applyOp cfg (.cancelApproval (.signed owner) id delegate) s =
      (s, some .Unknown)) ∧
    ((o = .root ∨ o = .signed d.admin) →
      applyOp cfg (.forceCancelApproval o id owner delegate) s =
        (s, some .Unknown)) ∧
    some DispatchError.Unknown ≠ some DispatchError.Unapproved := by
  refine ⟨?_, ?_, by decide⟩
  · refine applyOp_of_runOp_error ?_
    show cancelApprovalFn (.signed owner) id delegate s = .error .Unknown
    unfold cancelApprovalFn
    dsimp only
    rw [hd]
    dsimp only
    rw [happr]
  · intro ho
    refine applyOp_of_runOp_error ?_
    show forceCancelApprovalFn o id owner delegate s = .error .Unknown
    rcases ho with rfl | rfl
    · unfold forceCancelApprovalFn
      rw [hd]
      dsimp only
      simp only [Bool.false_eq_true, if_false]
      rw [happr]
    · unfold forceCancelApprovalFn
      rw [hd]
      dsimp only
      simp only [bne_self_eq_false, Bool.false_eq_true, if_false]
      rw [happr]

/-- Witness for C10 at a concrete asset with an empty approval store. -/
theorem c10_cancel_missing_approval_witness :
    (applyOp cfg0 (.cancelApproval (.signed 2) 1 3) c4s =
      (c4s, some .Unknown)) ∧
    ((Origin.signed 1 = .root ∨ Origin.signed 1 = .signed c4d.admin) →
      applyOp cfg0 (.forceCancelApproval (.signed 1) 1 2 3) c4s =
        (c4s, some .Unknown)) ∧
    some DispatchError.Unknown ≠ some DispatchError.Unapproved :=
  c10_cancel_missing_approval cfg0 (by decide) (by decide)

/-! ## Claim C8 -/

/-- C8: transactional dispatch — whenever a public operation returns an
error, the state (registry, account ledger, approvals, metadata and
currency) is exactly the starting state; no partial write survives. -/
theorem c8_atomic_rollback (cfg : Config) (op : Op) (s s' : State)
    (e : DispatchError) (h : applyOp cfg op s = (s', some e)) : s' = s := by
  unfold applyOp at h
  split at h
  · simp only [Prod.mk.injEq] at h
    exact absurd h.2 (by simp)
  · simp only [Prod.mk.injEq] at h
    exact h.1.symm

/-- Witness for C8: a failing transfer on an empty ledger leaves the
state untouched. -/
theorem c8_atomic_rollback_witness :
    (applyOp cfg0 (.transfer (.signed 1) 1 2 5) (initState cur0)).1 =
      initState cur0 :=
  c8_atomic_rollback cfg0 (.transfer (.signed 1) 1 2 5) (initState cur0)
    (applyOp cfg0 (.transfer (.signed 1) 1 2 5) (initState cur0)).1
    .Unknown (by decide)

/-! ## Claim C1 -/

/-- C1 trace, step 1: force-create asset 1 (owner 1, sufficient,
`min_balance` 1). -/
def c1s1 : State :=
  (applyOp cfg0 (.forceCreate .root 1 1 true 1) (initState cur0)).1

/-- C1 trace, step 2: mint 10 units to account 2. -/
def c1s2 : State := (applyOp cfg0 (.mint (.signed 1) 1 2 10) c1s1).1

/-- C1 trace, step 3: freeze the asset. -/
def c1s3 : State := (applyOp cfg0 (.freezeAsset (.signed 1) 1) c1s2).1

/-- C1 trace, step 4: start destroying the (frozen) asset. -/
def c1s4 : State := (applyOp cfg0 (.startDestroy (.signed 1) 1) c1s3).1

/-- C1 trace, step 5: drain the account records. -/
def c1s5 : State := (applyOp cfg0 (.destroyAccounts (.signed 1) 1) c1s4).1

/-- The registry record of asset 1 in `c1s2` (after create and mint). -/
def c1d : AssetDetails :=
  { owner := 1, issuer := 1, admin := 1, freezer := 1, supply := 10,
    deposit := 0, min_balance := 1, is_sufficient := true, accounts := 1,
    sufficients := 1, approvals := 0, is_frozen := false, status := .Live }

/-- C1 (counterexample to the claim as stated): `destroy_accounts` deletes
account records without adjusting `supply`, so the reachable state `c1s5`
(create, mint 10, freeze, start_destroy, destroy_accounts) registers asset
1 with supply 10 while the sum of its account balances is 0. -/
theorem c1_counterexample : Reachable cfg0 cur0 c1s5 ∧ ¬ Conserved c1s5 := by
  have h1 : Reachable cfg0 cur0 c1s1 :=
    Reachable.step (.forceCreate .root 1 1 true 1) Reachable.init (by decide)
  have h2 : Reachable cfg0 cur0 c1s2 :=
    Reachable.step (.mint (.signed 1) 1 2 10) h1 (by decide)
  have h3 : Reachable cfg0 cur0 c1s3 :=
    Reachable.step (.freezeAsset (.signed 1) 1) h2 (by decide)
  have h4 : Reachable cfg0 cur0 c1s4 :=
    Reachable.step (.startDestroy (.signed 1) 1) h3 (by decide)
  have h5 : Reachable cfg0 cur0 c1s5 :=
    Reachable.step (.destroyAccounts (.signed 1) 1) h4 (by decide)
  exact ⟨h5, by decide⟩

/-- C1 (amended): conservation restricted to assets whose status is
`Live`: in every reachable state, every registered asset that is not in
(or past) destruction has `supply` equal to the sum of its account
balances. During destruction `destroy_accounts` removes balances while
leaving `supply` stale, and `finish_destroy` then deletes the record. -/
theorem c1_supply_conservation_live {cfg : Config} {c0 : Currency}
    {s : State} (h : Reachable cfg c0 s) {id : Nat} {d : AssetDetails}
    (hd : alookup s.assets id = some d) (hl : d.status = .Live) :
    d.supply = sumBal s.accounts id :=
  (reachable_WF h).2 (id, d) (alookup_mem hd) hl

/-- Witness for the amended C1 on the concrete two-step trace `c1s2`. -/
theorem c1_supply_conservation_live_witness :
    alookup c1s2.assets 1 = some c1d ∧ c1d.supply = sumBal c1s2.accounts 1 := by
  have h1 : Reachable cfg0 cur0 c1s1 :=
    Reachable.step (.forceCreate .root 1 1 true 1) Reachable.init (by decide)
  have h2 : Reachable cfg0 cur0 c1s2 :=
    Reachable.step (.mint (.signed 1) 1 2 10) h1 (by decide)
  have hd : alookup c1s2.assets 1 = some c1d := by decide
  exact ⟨hd, c1_supply_conservation_live h2 hd (by decide)⟩

/-! ## Claim C2 -/

/-- C2 trace, step 1: force-create asset 1 (owner 1, sufficient,
`min_balance` 1). -/
def c2s1 : State :=
  (applyOp cfg0 (.forceCreate .root 1 1 true 1) (initState cur0)).1

/-- C2 trace, step 2: mint 5 units to account 2. -/
def c2s2 : State := (applyOp cfg0 (.mint (.signed 1) 1 2 5) c2s1).1

/-- C2 trace, step 3: `force_asset_status` raising `min_balance` to 10
over the existing balance of 5. -/
def c2s3 : State :=
  (applyOp cfg0 (.forceAssetStatus .root 1 1 1 1 1 10 true false) c2s2).1

/-- C2 (counterexample to the claim as stated): `force_asset_status`
rewrites `min_balance` without touching account records, so the reachable
state `c2s3` holds account 2 at balance 5, strictly between 0 and the new
floor 10. -/
theorem c2_counterexample : Reachable cfg0 cur0 c2s3 ∧ ¬ Floor c2s3 := by
  have h1 : Reachable cfg0 cur0 c2s1 :=
    Reachable.step (.forceCreate .root 1 1 true 1) Reachable.init (by decide)
  have h2 : Reachable cfg0 cur0 c2s2 :=
    Reachable.step (.mint (.signed 1) 1 2 5) h1 (by decide)
  have h3 : Reachable cfg0 cur0 c2s3 :=
    Reachable.step (.forceAssetStatus .root 1 1 1 1 1 10 true false) h2
      (by decide)
  exact ⟨h3, by decide⟩

/-- C2 (amended): the all-or-nothing floor holds in every state reachable
without `force_asset_status`: every account record with positive balance
holds at least the `min_balance` of its asset. -/
theorem c2_floor_no_force_status {cfg : Config} {c0 : Currency} {s : State}
    (h : ReachableNoFAS cfg c0 s) : Floor s :=
  (reachableNoFAS_WF_Floor h).2

/-- Witness for the amended C2 on the concrete trace `c2s2`, reached
without `force_asset_status`. -/
theorem c2_floor_no_force_status_witness : Floor c2s2 := by
  have h1 : ReachableNoFAS cfg0 cur0 c2s1 :=
    ReachableNoFAS.step (.forceCreate .root 1 1 true 1) ReachableNoFAS.init
      (by decide) (by decide)
  have h2 : ReachableNoFAS cfg0 cur0 c2s2 :=
    ReachableNoFAS.step (.mint (.signed 1) 1 2 5) h1 (by decide) (by decide)
  exact c2_floor_no_force_status h2

/-! ## Claim C5 -/

/-- C5: on an asset in `Destroying` status (reached frozen, called by the
owner or the force origin, with a positive `RemoveKeysLimit`),
`destroy_accounts` (resp. `destroy_approvals`) succeeds, removes exactly
`min remaining RemoveKeysLimit` account (resp. approval) records — hence
at most `RemoveKeysLimit` — decrements the registry counter once per
removed record with truncated subtraction (never below zero), and
strictly decreases the number of remaining records whenever any remain,
so the repeated drain terminates at `remaining == 0`. -/
theorem c5_drain (cfg : Config) {s : State} {id : Nat} {d : AssetDetails}
    {o : Origin}
    (hd : alookup s.assets id = some d) (hfz : d.is_frozen = true)
    (hst : d.status = .Destroying) (ho : o = .root ∨ o = .signed d.owner)
    (hlim : 1 ≤ cfg.removeKeysLimit) :
    (∃ s' d', applyOp cfg (.destroyAccounts o id) s = (s', none) ∧
      alookup s'.assets id = some d' ∧
      cntAcc s'.accounts id = cntAcc s.accounts id -
        min (cntAcc s.accounts id) cfg.removeKeysLimit ∧
      d'.accounts = d.accounts -
        min (cntAcc s.accounts id) cfg.removeKeysLimit ∧
      cntAcc s.accounts id - cntAcc s'.accounts id ≤ cfg.removeKeysLimit ∧
      (0 < cntAcc s.accounts id →
        cntAcc s'.accounts id < cntAcc s.accounts id)) ∧
    (∃ s' d', applyOp cfg (.destroyApprovals o id) s = (s', none) ∧
      alookup s'.assets id = some d' ∧
      cntApp s'.approvals id = cntApp s.approvals id -
        min (cntApp s.approvals id) cfg.removeKeysLimit ∧
      d'.approvals = d.approvals -
        min (cntApp s.approvals id) cfg.removeKeysLimit ∧
      cntApp s.approvals id - cntApp s'.approvals id ≤ cfg.removeKeysLimit ∧
      (0 < cntApp s.approvals id →
        cntApp s'.approvals id < cntApp s.approvals id)) := by
  have hperm := permFail_false ho
  constructor
  · have hrun : runOp cfg (.destroyAccounts o id) s = .ok
        { s with
            assets := aset s.assets id
              ((drainSplit cfg.removeKeysLimit
                  (s.accounts.filter (fun e => decide (e.1.1 = id)))).1.foldl
                (fun (p : AssetDetails × Currency) e =>
                  deadAccount e.1.2 e.2 p.1 p.2) (d, s.currency)).1,
            accounts := s.accounts.filter (fun e => decide (¬ e.1.1 = id)) ++
              (drainSplit cfg.removeKeysLimit
                (s.accounts.filter (fun e => decide (e.1.1 = id)))).2,
            currency := ((drainSplit cfg.removeKeysLimit
                  (s.accounts.filter (fun e => decide (e.1.1 = id)))).1.foldl
                (fun (p : AssetDetails × Currency) e =>
                  deadAccount e.1.2 e.2 p.1 p.2) (d, s.currency)).2 } := by
      show destroyAccountsFn cfg o id s = _
      unfold destroyAccountsFn
      rw [hd]
      dsimp only
      rw [hperm, hfz, hst]
      rfl
    have hsplit : (drainSplit cfg.removeKeysLimit
          (s.accounts.filter (fun e => decide (e.1.1 = id)))).1.length =
        min (cntAcc s.accounts id) cfg.removeKeysLimit := by
      rw [drainSplit_length _ _ hlim]
      rfl
    have happ : (drainSplit cfg.removeKeysLimit
          (s.accounts.filter (fun e => decide (e.1.1 = id)))).1.length +
        (drainSplit cfg.removeKeysLimit
          (s.accounts.filter (fun e => decide (e.1.1 = id)))).2.length =
        cntAcc s.accounts id := by
      show _ = (s.accounts.filter (fun e => decide (e.1.1 = id))).length
      rw [← List.length_append, drainSplit_append]
    have hcnt : cntAcc (s.accounts.filter (fun e => decide (¬ e.1.1 = id)) ++
          (drainSplit cfg.removeKeysLimit
            (s.accounts.filter (fun e => decide (e.1.1 = id)))).2) id =
        (drainSplit cfg.removeKeysLimit
          (s.accounts.filter (fun e => decide (e.1.1 = id)))).2.length := by
      rw [cntAcc_append,
        cntAcc_eq_zero _ _
          (fun e he => of_decide_eq_true (List.mem_filter.mp he).2),
        cntAcc_eq_length _ _
          (fun e he => of_decide_eq_true
            (List.mem_filter.mp (mem_drainSplit_right he)).2)]
      omega
    have hda := (foldl_dead_fields (drainSplit cfg.removeKeysLimit
        (s.accounts.filter (fun e => decide (e.1.1 = id)))).1
        d s.currency).2.2.2.2
    refine ⟨_, _, applyOp_of_runOp_ok hrun, alookup_aset_self _ _ _,
      ?_, ?_, ?_, ?_⟩
    · dsimp only
      rw [hcnt]
      omega
    · dsimp only
      rw [hda, hsplit]
    · dsimp only
      rw [hcnt]
      omega
    · intro h
      dsimp only
      rw [hcnt]
      omega
  · have hrun : runOp cfg (.destroyApprovals o id) s = .ok
        { s with
            assets := aset s.assets id
              ((drainSplit cfg.removeKeysLimit
                  (s.approvals.filter (fun e => decide (e.1.1 = id)))).1.foldl
                (fun (p : AssetDetails × Currency) e =>
                  ({ p.1 with approvals := p.1.approvals - 1 },
                    p.2.unreserve e.1.2.1 e.2.deposit)) (d, s.currency)).1,
            approvals := s.approvals.filter (fun e => decide (¬ e.1.1 = id)) ++
              (drainSplit cfg.removeKeysLimit
                (s.approvals.filter (fun e => decide (e.1.1 = id)))).2,
            currency := ((drainSplit cfg.removeKeysLimit
                  (s.approvals.filter (fun e => decide (e.1.1 = id)))).1.foldl
                (fun (p : AssetDetails × Currency) e =>
                  ({ p.1 with approvals := p.1.approvals - 1 },
                    p.2.unreserve e.1.2.1 e.2.deposit)) (d, s.currency)).2 } := by
      show destroyApprovalsFn cfg o id s = _
      unfold destroyApprovalsFn
      rw [hd]
      dsimp only
      rw [hperm, hfz, hst]
      rfl
    have hsplit : (drainSplit cfg.removeKeysLimit
          (s.approvals.filter (fun e => decide (e.1.1 = id)))).1.length =
        min (cntApp s.approvals id) cfg.removeKeysLimit := by
      rw [drainSplit_length _ _ hlim]
      rfl
    have happ : (drainSplit cfg.removeKeysLimit
          (s.approvals.filter (fun e => decide (e.1.1 = id)))).1.length +
        (drainSplit cfg.removeKeysLimit
          (s.approvals.filter (fun e => decide (e.1.1 = id)))).2.length =
        cntApp s.approvals id := by
      show _ = (s.approvals.filter (fun e => decide (e.1.1 = id))).length
      rw [← List.length_append, drainSplit_append]
    have hcnt : cntApp (s.approvals.filter (fun e => decide (¬ e.1.1 = id)) ++
          (drainSplit cfg.removeKeysLimit
            (s.approvals.filter (fun e => decide (e.1.1 = id)))).2) id =
        (drainSplit cfg.removeKeysLimit
          (s.approvals.filter (fun e => decide (e.1.1 = id)))).2.length := by
      rw [cntApp_append,
        cntApp_eq_zero _ _
          (fun e he => of_decide_eq_true (List.mem_filter.mp he).2),
        cntApp_eq_length _ _
          (fun e he => of_decide_eq_true
            (List.mem_filter.mp (mem_drainSplit_right he)).2)]
      omega
    have hda := foldl_appr_fields (drainSplit cfg.removeKeysLimit
        (s.approvals.filter (fun e => decide (e.1.1 = id)))).1 d s.currency
    refine ⟨_, _, applyOp_of_runOp_ok hrun, alookup_aset_self _ _ _,
      ?_, ?_, ?_, ?_⟩
    · dsimp only
      rw [hcnt]
      omega
    · dsimp only
      rw [hda]
      dsimp only
      rw [hsplit]
    · dsimp only
      rw [hcnt]
      omega
    · intro h
      dsimp only
      rw [hcnt]
      omega

/-- Registry record of the C5 witness asset: frozen, in `Destroying`
status, with 3 account records and 2 approval records outstanding. -/
def c5d : AssetDetails :=
  { owner := 1, issuer := 1, admin := 1, freezer := 1, supply := 9,
    deposit := 0, min_balance := 1, is_sufficient := false, accounts := 3,
    sufficients := 0, approvals := 2, is_frozen := true,
    status := .Destroying }

/-- C5 witness state: asset 1 mid-destruction with 3 accounts and 2
approvals. -/
def c5s : State :=
  { assets := [(1, c5d)],
    accounts :=
      [((1, 2), { balance := 3, is_frozen := false, reason := .Consumer }),
        ((1, 3), { balance := 3, is_frozen := false, reason := .Consumer }),
        ((1, 4), { balance := 3, is_frozen := false, reason := .Consumer })],
    approvals :=
      [((1, 2, 3), { amount := 5, deposit := 4 }),
        ((1, 2, 4), { amount := 5, deposit := 4 })],
    metadata := [], currency := cur0 }

/-- Witness for C5 on the concrete mid-destruction state `c5s`. -/
theorem c5_drain_witness :
    (∃ s' d', applyOp cfg0 (.destroyAccounts .root 1) c5s = (s', none) ∧
      alookup s'.assets 1 = some d' ∧
      cntAcc s'.accounts 1 = cntAcc c5s.accounts 1 -
        min (cntAcc c5s.accounts 1) cfg0.removeKeysLimit ∧
      d'.accounts = c5d.accounts -
        min (cntAcc c5s.accounts 1) cfg0.removeKeysLimit ∧
      cntAcc c5s.accounts 1 - cntAcc s'.accounts 1 ≤ cfg0.removeKeysLimit ∧
      (0 < cntAcc c5s.accounts 1 →
        cntAcc s'.accounts 1 < cntAcc c5s.accounts 1)) ∧
    (∃ s' d', applyOp cfg0 (.destroyApprovals .root 1) c5s = (s', none) ∧
      alookup s'.assets 1 = some d' ∧
      cntApp s'.approvals 1 = cntApp c5s.approvals 1 -
        min (cntApp c5s.approvals 1) cfg0.removeKeysLimit ∧
      d'.approvals = c5d.approvals -
        min (cntApp c5s.approvals 1) cfg0.removeKeysLimit ∧
      cntApp c5s.approvals 1 - cntApp s'.approvals 1 ≤ cfg0.removeKeysLimit ∧
      (0 < cntApp c5s.approvals 1 →
        cntApp s'.approvals 1 < cntApp c5s.approvals 1)) :=
  c5_drain cfg0 (by decide) (by decide) (by decide) (Or.inl rfl) (by decide)

/-! ## Claim C6 -/

/-- C6: when debiting `amount` would strand the source strictly between 0
and `min_balance`, `transfer_keep_alive` fails with `BalanceLow` leaving
the state untouched, while `transfer` succeeds, sweeps the source's whole
remaining balance (dust included) to the destination, and removes the
source's account record. -/
theorem c6_dust_sweep (cfg : Config) {s : State} {id src dst amount : Nat}
    {d : AssetDetails} {srcA dstA : AssetAccount}
    (hd : alookup s.assets id = some d) (hdfz : d.is_frozen = false)
    (hsa : alookup s.accounts (id, src) = some srcA)
    (hsfz : srcA.is_frozen = false)
    (hda2 : alookup s.accounts (id, dst) = some dstA)
    (hdafz : dstA.is_frozen = false)
    (hne : src ≠ dst) (h0 : 0 < amount) (hlt : amount ≤ srcA.balance)
    (hdust1 : 0 < srcA.balance - amount)
    (hdust2 : srcA.balance - amount < d.min_balance)
    (hmind : d.min_balance ≤ dstA.balance + srcA.balance)
    (hmaxd : dstA.balance + srcA.balance ≤ cfg.maxBalance)
    (hsup : d.supply ≤ cfg.maxBalance) :
    applyOp cfg (.transferKeepAlive (.signed src) id dst amount) s =
      (s, some .BalanceLow) ∧
    ∃ s', applyOp cfg (.transfer (.signed src) id dst amount) s =
        (s', none) ∧
      alookup s'.accounts (id, src) = none ∧
      alookup s'.accounts (id, dst) =
        some { dstA with balance := dstA.balance + srcA.balance } := by
  have hkne : ((id, dst) : Nat × Nat) ≠ (id, src) := by
    simp only [ne_eq, Prod.mk.injEq, not_and]
    intro _ h
    exact hne h.symm
  have hkne' : ((id, src) : Nat × Nat) ≠ (id, dst) := by
    simp only [ne_eq, Prod.mk.injEq, not_and]
    intro _ h
    exact hne h
  constructor
  · have hdeb : debitAmount d.min_balance srcA.balance amount true false =
        .error .BalanceLow := by
      unfold debitAmount
      rw [if_pos rfl,
        if_neg (by omega : ¬ amount ≤ srcA.balance - d.min_balance),
        if_neg Bool.false_ne_true]
    have hdec : decreaseBalance id src amount true false false s =
        .error .BalanceLow := by
      unfold decreaseBalance
      rw [if_neg (by omega : ¬ amount = 0), hd]
      dsimp only
      rw [hsa]
      dsimp only
      rw [hdfz]
      simp only [Bool.false_eq_true, if_false]
      rw [hsfz]
      simp only [Bool.false_and, Bool.false_eq_true, if_false]
      rw [hdeb]
    refine applyOp_of_runOp_error ?_
    show transferKeepAliveFn cfg (.signed src) id dst amount s =
      .error .BalanceLow
    unfold transferKeepAliveFn
    dsimp only
    have hdo : doTransfer cfg id src dst amount none true false false s =
        .error .BalanceLow := by
      unfold doTransfer
      rw [if_neg (by omega : ¬ amount = 0), hd]
      dsimp only [Option.isSome]
      simp only [Bool.false_eq_true, if_false]
      rw [hdec]
    rw [hdo]
  · have hdeb : debitAmount d.min_balance srcA.balance amount false false =
        .ok srcA.balance := by
      unfold debitAmount
      rw [if_neg Bool.false_ne_true,
        if_neg (by omega : ¬ srcA.balance < amount),
        if_pos (⟨hdust1, hdust2⟩ :
          0 < srcA.balance - amount ∧ srcA.balance - amount < d.min_balance)]
    have hdec : decreaseBalance id src amount false false false s =
        .ok (srcA.balance,
          { s with
              accounts := aerase s.accounts (id, src),
              assets := aset s.assets id
                (deadAccount src srcA d s.currency).1,
              currency := (deadAccount src srcA d s.currency).2 }) := by
      unfold decreaseBalance
      rw [if_neg (by omega : ¬ amount = 0), hd]
      dsimp only
      rw [hsa]
      dsimp only
      rw [hdfz]
      simp only [Bool.false_eq_true, if_false]
      rw [hsfz]
      simp only [Bool.false_and, Bool.false_eq_true, if_false]
      rw [hdeb]
      dsimp only
      unfold settleDebit
      rw [if_pos (by omega : srcA.balance - srcA.balance = 0)]
    have hinc : increaseBalance cfg id dst srcA.balance 0
        { s with
            accounts := aerase s.accounts (id, src),
            assets := aset s.assets id (deadAccount src srcA d s.currency).1,
            currency := (deadAccount src srcA d s.currency).2 } =
        .ok { s with
            accounts := aset (aerase s.accounts (id, src)) (id, dst)
              { dstA with balance := dstA.balance + srcA.balance },
            assets := aset
              (aset s.assets id (deadAccount src srcA d s.currency).1) id
              { (deadAccount src srcA d s.currency).1 with
                  supply :=
                    (deadAccount src srcA d s.currency).1.supply + 0 },
            currency := (deadAccount src srcA d s.currency).2 } := by
      unfold increaseBalance
      rw [if_neg (by omega : ¬ srcA.balance = 0)]
      dsimp only
      rw [alookup_aset_self]
      dsimp only [deadAccount]
      rw [hdfz]
      simp only [Bool.false_eq_true, if_false]
      rw [alookup_aerase_ne _ _ _ hkne, hda2]
      dsimp only
      rw [hdafz]
      simp only [Bool.false_eq_true, if_false]
      rw [if_neg (by omega : ¬ cfg.maxBalance < dstA.balance + srcA.balance),
        if_neg (by omega : ¬ dstA.balance + srcA.balance < d.min_balance),
        if_neg (by omega : ¬ cfg.maxBalance < d.supply + 0)]
    have hdo : doTransfer cfg id src dst amount none false false false s =
        .ok (srcA.balance,
          { s with
              accounts := aset (aerase s.accounts (id, src)) (id, dst)
                { dstA with balance := dstA.balance + srcA.balance },
              assets := aset
                (aset s.assets id (deadAccount src srcA d s.currency).1) id
                { (deadAccount src srcA d s.currency).1 with
                    supply :=
                      (deadAccount src srcA d s.currency).1.supply + 0 },
              currency := (deadAccount src srcA d s.currency).2 }) := by
      unfold doTransfer
      rw [if_neg (by omega : ¬ amount = 0), hd]
      dsimp only [Option.isSome]
      simp only [Bool.false_eq_true, if_false]
      rw [hdec]
      dsimp only
      rw [hinc]
    refine ⟨{ s with
        accounts := aset (aerase s.accounts (id, src)) (id, dst)
          { dstA with balance := dstA.balance + srcA.balance },
        assets := aset
          (aset s.assets id (deadAccount src srcA d s.currency).1) id
          { (deadAccount src srcA d s.currency).1 with
              supply := (deadAccount src srcA d s.currency).1.supply + 0 },
        currency := (deadAccount src srcA d s.currency).2 },
      applyOp_of_runOp_ok ?_, ?_, ?_⟩
    · show transferFn cfg (.signed src) id dst amount s = .ok _
      unfold transferFn
      dsimp only
      rw [hdo]
    · dsimp only
      rw [alookup_aset_ne _ _ _ _ hkne', alookup_aerase_self]
    · dsimp only
      rw [alookup_aset_self]

/-- Registry record of the C6 witness asset: Live, unfrozen, floor 5. -/
def c6d : AssetDetails :=
  { owner := 1, issuer := 1, admin := 1, freezer := 1, supply := 12,
    deposit := 0, min_balance := 5, is_sufficient := true, accounts := 2,
    sufficients := 2, approvals := 0, is_frozen := false, status := .Live }

/-- Source account record of the C6 witness (balance 7). -/
def c6a1 : AssetAccount :=
  { balance := 7, is_frozen := false, reason := .Sufficient }

/-- Destination account record of the C6 witness (balance 5). -/
def c6a2 : AssetAccount :=
  { balance := 5, is_frozen := false, reason := .Sufficient }

/-- C6 witness state: account 1 holds 7, account 2 holds 5; moving 4 from
account 1 would leave it at 3, strictly inside `(0, 5)`. -/
def c6s : State :=
  { assets := [(1, c6d)],
    accounts := [((1, 1), c6a1), ((1, 2), c6a2)],
    approvals := [], metadata := [], currency := cur0 }

/-- Witness for C6 on the concrete state `c6s`. -/
theorem c6_dust_sweep_witness :
    applyOp cfg0 (.transferKeepAlive (.signed 1) 1 2 4) c6s =
      (c6s, some .BalanceLow) ∧
    ∃ s', applyOp cfg0 (.transfer (.signed 1) 1 2 4) c6s = (s', none) ∧
      alookup s'.accounts (1, 1) = none ∧
      alookup s'.accounts (1, 2) =
        some { c6a2 with balance := c6a2.balance + c6a1.balance } :=
  @c6_dust_sweep cfg0 c6s 1 1 2 4 c6d c6a1 c6a2 (by decide) (by decide)
    (by decide) (by decide) (by decide) (by decide) (by decide) (by decide)
    (by decide) (by decide) (by decide) (by decide) (by decide) (by decide)

/-! ## Claim C7 -/

/-- C7: approving `m` and then `n` for the same (asset, owner, delegate)
with no prior approval yields a single approval record of amount `m + n`,
reserves `ApprovalDeposit` from the owner exactly once (on creation, not
on the top-up), and increments the registry `approvals` counter exactly
once. -/
theorem c7_approve_topup (cfg : Config) {s : State}
    {id owner delegate m n : Nat} {d : AssetDetails}
    (hd : alookup s.assets id = some d)
    (happr : alookup s.approvals (id, owner, delegate) = none)
    (hfree : cfg.approvalDeposit ≤ s.currency.freeOf owner)
    (hmax : m + n ≤ cfg.maxBalance) :
    ∃ s1 s2,
      applyOp cfg (.approveTransfer (.signed owner) id delegate m) s =
        (s1, none) ∧
      applyOp cfg (.approveTransfer (.signed owner) id delegate n) s1 =
        (s2, none) ∧
      alookup s2.approvals (id, owner, delegate) =
        some { amount := m + n, deposit := cfg.approvalDeposit } ∧
      (∃ d2, alookup s2.assets id = some d2 ∧
        d2.approvals = d.approvals + 1) ∧
      s2.currency.reservedOf owner =
        s.currency.reservedOf owner + cfg.approvalDeposit ∧
      s2.currency.freeOf owner =
        s.currency.freeOf owner - cfg.approvalDeposit := by
  have hmin1 : min m cfg.maxBalance = m := by omega
  have hmin2 : min (m + n) cfg.maxBalance = m + n := by omega
  have hres : s.currency.reserve owner cfg.approvalDeposit = some
      { free := aset s.currency.free owner
          (s.currency.freeOf owner - cfg.approvalDeposit),
        reserved := aset s.currency.reserved owner
          (s.currency.reservedOf owner + cfg.approvalDeposit) } := by
    unfold Currency.reserve
    rw [if_neg (by omega : ¬ s.currency.freeOf owner < cfg.approvalDeposit)]
  have hrun1 : runOp cfg (.approveTransfer (.signed owner) id delegate m)
      s = .ok
      { s with
          currency :=
            { free := aset s.currency.free owner
                (s.currency.freeOf owner - cfg.approvalDeposit),
              reserved := aset s.currency.reserved owner
                (s.currency.reservedOf owner + cfg.approvalDeposit) },
          approvals := aset s.approvals (id, owner, delegate)
            { amount := m, deposit := cfg.approvalDeposit },
          assets := aset s.assets id
            { d with approvals := d.approvals + 1 } } := by
    show approveTransferFn cfg (.signed owner) id delegate m s = _
    unfold approveTransferFn
    dsimp only
    rw [hd]
    dsimp only
    rw [happr]
    dsimp only
    rw [hres]
    dsimp only
    rw [hmin1]
  have hrun2 : runOp cfg (.approveTransfer (.signed owner) id delegate n)
      { s with
          currency :=
            { free := aset s.currency.free owner
                (s.currency.freeOf owner - cfg.approvalDeposit),
              reserved := aset s.currency.reserved owner
                (s.currency.reservedOf owner + cfg.approvalDeposit) },
          approvals := aset s.approvals (id, owner, delegate)
            { amount := m, deposit := cfg.approvalDeposit },
          assets := aset s.assets id
            { d with approvals := d.approvals + 1 } } = .ok
      { s with
          currency :=
            { free := aset s.currency.free owner
                (s.currency.freeOf owner - cfg.approvalDeposit),
              reserved := aset s.currency.reserved owner
                (s.currency.reservedOf owner + cfg.approvalDeposit) },
          approvals := aset
            (aset s.approvals (id, owner, delegate)
              { amount := m, deposit := cfg.approvalDeposit })
            (id, owner, delegate)
            { amount := m + n, deposit := cfg.approvalDeposit },
          assets := aset s.assets id
            { d with approvals := d.approvals + 1 } } := by
    show approveTransferFn cfg (.signed owner) id delegate n _ = _
    unfold approveTransferFn
    dsimp only
    rw [alookup_aset_self]
    dsimp only
    rw [alookup_aset_self]
    dsimp only
    rw [hmin2]
  refine ⟨_, _, applyOp_of_runOp_ok hrun1, applyOp_of_runOp_ok hrun2,
    ?_, ⟨_, alookup_aset_self _ _ _, rfl⟩, ?_, ?_⟩
  · dsimp only
    rw [alookup_aset_self]
  · show (alookup (aset s.currency.reserved owner
        (s.currency.reservedOf owner + cfg.approvalDeposit)) owner).getD 0 =
      s.currency.reservedOf owner + cfg.approvalDeposit
    rw [alookup_aset_self]
    rfl
  · show (alookup (aset s.currency.free owner
        (s.currency.freeOf owner - cfg.approvalDeposit)) owner).getD 0 =
      s.currency.freeOf owner - cfg.approvalDeposit
    rw [alookup_aset_self]
    rfl

/-- C7 witness state: asset 1 registered (record `c6d`), no approvals. -/
def c7s : State :=
  { assets := [(1, c6d)], accounts := [], approvals := [], metadata := [],
    currency := cur0 }

/-- Witness for C7 on the concrete state `c7s` with amounts 100 and 50. -/
theorem c7_approve_topup_witness :
    ∃ s1 s2,
      applyOp cfg0 (.approveTransfer (.signed 2) 1 3 100) c7s =
        (s1, none) ∧
      applyOp cfg0 (.approveTransfer (.signed 2) 1 3 50) s1 = (s2, none) ∧
      alookup s2.approvals (1, 2, 3) =
        some { amount := 100 + 50, deposit := cfg0.approvalDeposit } ∧
      (∃ d2, alookup s2.assets 1 = some d2 ∧
        d2.approvals = c6d.approvals + 1) ∧
      s2.currency.reservedOf 2 =
        c7s.currency.reservedOf 2 + cfg0.approvalDeposit ∧
      s2.currency.freeOf 2 = c7s.currency.freeOf 2 - cfg0.approvalDeposit :=
  c7_approve_topup cfg0 (by decide) (by decide) (by decide) (by decide)

end SubstrateAssets
